import Mathlib

/-!
Verification development for the pygtail core (`src/pygtail/core.py`).

The Python module is shallowly embedded as follows.

* File contents are `List Char`; a filesystem `FS` maps paths to inode
  numbers and inode numbers to contents.  A gzip archive is represented by
  its *decompressed* content, since `gzip.open` exposes the decompressed
  stream (seek/tell positions of a `GzipFile` refer to the decompressed
  data, exactly like the positions our model uses).
* An open file object is a `Handle`: the inode it was opened on, its
  current position, and whether it has been closed.  A handle keeps
  reading its inode's content even after the path has been re-pointed at
  a different inode (POSIX semantics of an open descriptor).
* The mutable instance attributes of class `Pygtail` that the modelled
  methods touch are gathered in `PState`; each method becomes a function
  from (filesystem, state) to (result, new state).  Methods that can
  raise an unhandled OS-level error (`FileNotFoundError` from `open`,
  `OSError` from a negative seek or from `stat` of a missing path)
  return `Option`/`none` in that case.
* Python floats (`wait_step`, `wait_timeout`, `time_waited`) are modelled
  as exact rationals `ℚ`; the claims under verification are about
  control flow and comparisons, not float rounding.
* `time.sleep` and the passage of wall-clock time during the polling
  loop are modelled by giving `_wait_for_update` a list of filesystem
  snapshots, one per loop iteration (the state of the world observed by
  the iteration's `readline`/`_check_rotate_truncate`).  Running out of
  snapshots yields the `pending` outcome (the loop would keep polling).
* `datetime` values are modelled at two levels.  The sidecar timestamp
  is parsed into a `Timestamp` record of its six calendar fields.  The
  rotated-file locator only ever uses datetimes floored to the hour
  (`replace(minute=0, second=0, microsecond=0)`), their difference in
  whole hours, and an hour label (`strftime('%Y%m%d%H')`); we model a
  floored datetime by its absolute hour index (hours since 0001-01-01,
  computed with the same proleptic-Gregorian day arithmetic CPython's
  `datetime.toordinal` uses) and the `%Y%m%d%H` label by the decimal
  rendering of that index — both labelings are injective on hours, and
  the subtraction `(end - start).total_seconds()/3600` of two floored
  datetimes equals the difference of their hour indices.
-/

/-- Log messages emitted by `_check_rotate_truncate`.  The source emits
exactly three, all via `logging.info`; it emits no warning-level message
anywhere in the detector. -/
inductive LogEvent
  | infoFileMoved
  | infoFileRotated
  | infoFileTruncated
  deriving DecidableEq

/-- Severity levels of the `logging` calls the model tracks. -/
inductive LogLevel
  | debug
  | info
  | warning
  deriving DecidableEq

/-- Severity of each tracked message: the detector only ever logs at
`info` level (`logging.info` at `core.py` lines 254, 262, 266). -/
def LogEvent.level : LogEvent → LogLevel := fun _ => .info

/-- A parsed `datetime` value: the six fields matched by the format
`'%Y-%m-%dT%H:%M:%S.%f'` (`self._dt_format`). -/
structure Timestamp where
  year : ℕ
  month : ℕ
  day : ℕ
  hour : ℕ
  minute : ℕ
  second : ℕ
  micro : ℕ
  deriving DecidableEq

/-- The Python exceptions `_parse_offset_file` can raise out of a
malformed sidecar: `IndexError` from `offset_data[k]` on a missing
field, `ValueError` from `int(...)`/`datetime.strptime(...)` on an
unparsable one.  Together they are the spec's `CorruptState`: the load
fails loudly instead of resetting. -/
inductive PyExc
  | indexError
  | valueError
  deriving DecidableEq

/-- A filesystem snapshot: `paths` maps a file name to the inode number
it currently designates, `inodes` maps an inode number to its (for
archives: decompressed) content. -/
structure FS where
  paths : List (String × ℕ)
  inodes : List (ℕ × List Char)
  deriving DecidableEq

/-- `os.stat(p).st_ino`, as an `Option` (a missing path raises). -/
def FS.statIno (fs : FS) (p : String) : Option ℕ :=
  fs.paths.lookup p

/-- Content of an inode (empty if the inode is unknown to the snapshot). -/
def FS.inodeContent (fs : FS) (i : ℕ) : List Char :=
  (fs.inodes.lookup i).getD []

/-- `os.stat(p)` restricted to the two fields the detector reads:
`(st_ino, st_size)`. -/
def FS.stat (fs : FS) (p : String) : Option (ℕ × ℕ) :=
  (fs.paths.lookup p).map fun i => (i, (fs.inodeContent i).length)

/-- An open file object: inode it was opened on, current read position
(in decompressed bytes for a gzip member), and closed flag. -/
structure Handle where
  ino : ℕ
  pos : ℕ
  closed : Bool
  deriving DecidableEq

/-- The mutable `Pygtail` instance state used by the modelled methods.
`offset` is `self._offset` (an `int` once `__init__` has run; kept as
`ℤ` because the sidecar may contain any integer), `fh` is `self._fh`,
`timeWaited` is `self.time_waited`.  The constructor-time attributes
`_offset_file`, `_hostname`, `_filename_format`, `_log_hour_format`,
`_dt_format`, `_offset_file_inode` and `_last_log` are consumed only at
construction and are passed to the corresponding functions directly. -/
structure PState where
  filename : String
  paranoid : Bool
  copytruncate : Bool
  waitStep : ℚ
  waitTimeout : ℚ
  timeWaited : ℚ
  offset : ℤ
  fh : Option Handle
  rotatedLogfiles : List String
  catchingUp : Bool
  deriving DecidableEq

/-- The three fields `_update_offset_file` writes to the sidecar:
inode of the live path, `tell()` of the open handle, `datetime.now()`. -/
structure SidecarData where
  inode : ℕ
  offset : ℕ
  lastRead : Timestamp
  deriving DecidableEq

/-- The three instance attributes `_parse_offset_file` assigns:
`_offset_file_inode`, `_offset`, `_last_log`. -/
structure LoadedState where
  offsetFileInode : Option ℤ
  offset : ℤ
  lastLog : Option Timestamp
  deriving DecidableEq

deriving instance DecidableEq for Except

/-- Outcome of one modelled pull attempt (`_get_next_line` /
`_wait_for_update`): a line together with the new instance state, a
raised `StopIteration`, `pending` when the model's list of poll
snapshots ran out while the loop would keep polling, or an unhandled
OS-level error. -/
inductive PullResult
  | line (l : List Char) (st : PState)
  | stopIteration (st : PState)
  | pending (st : PState)
  | oserror
  deriving DecidableEq

/-- Caller-visible outcome of `next()`. -/
inductive NextResult
  | line (l : List Char)
  | stopIteration
  deriving DecidableEq

/-! ### Text helpers (Python line splitting, `str.strip`, `int`,
`datetime.strptime`) -/

/-- The prefix of `l` up to and including the first `'\n'` (the whole
list if none): what one `readline()` returns from the remaining data. -/
def takeLine : List Char → List Char
  | [] => []
  | c :: rest => if c = '\n' then [c] else c :: takeLine rest

/-- Split a text into Python file-iteration lines: each line keeps its
terminating `'\n'`; a final unterminated fragment is its own line.
`pyLines "a\nb\n" = ["a\n", "b\n"]`, `pyLines "a\nb" = ["a\n", "b"]`. -/
def pyLines : List Char → List (List Char)
  | [] => []
  | c :: rest =>
    if c = '\n' then ['\n'] :: pyLines rest
    else
      match pyLines rest with
      | [] => [[c]]
      | l :: ls => (c :: l) :: ls

/-- The ASCII whitespace recognized by `str.strip()` (the sidecar is
ASCII, so the further Unicode spaces cannot occur). -/
def isPySpace (c : Char) : Bool :=
  c = ' ' || c = '\t' || c = '\n' || c = '\r' || c = '\x0b' || c = '\x0c'

/-- `str.strip()`. -/
def pyStrip (l : List Char) : List Char :=
  ((l.dropWhile isPySpace).reverse.dropWhile isPySpace).reverse

/-- Value of a nonempty all-digit string; `none` otherwise. -/
def digitsValAux : ℕ → List Char → Option ℕ
  | acc, [] => some acc
  | acc, c :: rest =>
    if c.isDigit then digitsValAux (acc * 10 + (c.toNat - 48)) rest else none

/-- Value of a nonempty all-digit string; `none` otherwise. -/
def digitsVal : List Char → Option ℕ
  | [] => none
  | c :: rest => digitsValAux 0 (c :: rest)

/-- Python `int(s)` on an already-stripped decimal string: optional
sign followed by digits.  (The PEP 515 underscore grouping accepted by
`int` since Python 3.6 is not modelled; no claim exercises it.) -/
def parsePyInt (l : List Char) : Option ℤ :=
  match pyStrip l with
  | '+' :: rest => (digitsVal rest).map Int.ofNat
  | '-' :: rest => (digitsVal rest).map fun n => -(n : ℤ)
  | s => (digitsVal s).map Int.ofNat

/-- Proleptic-Gregorian leap year, as in CPython `datetime._is_leap`. -/
def isLeap (y : ℕ) : Bool :=
  y % 4 = 0 && (y % 100 ≠ 0 || y % 400 = 0)

/-- Length of a month, as in CPython `datetime._days_in_month`. -/
def daysInMonth (y m : ℕ) : ℕ :=
  if m = 2 then (if isLeap y then 29 else 28)
  else if m = 4 ∨ m = 6 ∨ m = 9 ∨ m = 11 then 30
  else 31

/-- Leading digit run of a string: `(digits, rest)`. -/
def grabDigits (l : List Char) : List Char × List Char :=
  l.span Char.isDigit

/-- A one-or-two digit field delimited by a non-digit, as matched by the
`_strptime` patterns for `%m`, `%d`, `%H`, `%M`, `%S`. -/
def field12 (l : List Char) : Option (ℕ × List Char) :=
  let (ds, rest) := grabDigits l
  if ds.length = 1 ∨ ds.length = 2 then (digitsVal ds).map fun v => (v, rest)
  else none

/-- `datetime.strptime(s, '%Y-%m-%dT%H:%M:%S.%f')`: `%Y` is exactly four
digits, the two-digit fields are one or two digits within the range the
`datetime` constructor accepts (`strptime`'s own `%S ≤ 61` is tightened
to `59` because `datetime` then rejects 60 and 61), `%f` is one to six
digits right-padded with zeros to microseconds, and the whole string
must be consumed ("unconverted data remains" otherwise). -/
def parseTimestamp (l : List Char) : Option Timestamp :=
  let (yds, r1) := grabDigits l
  if yds.length = 4 then
    match digitsVal yds, r1 with
    | some y, '-' :: r2 =>
      match field12 r2 with
      | some (mo, '-' :: r4) =>
        match field12 r4 with
        | some (dy, 'T' :: r6) =>
          match field12 r6 with
          | some (hh, ':' :: r8) =>
            match field12 r8 with
            | some (mi, ':' :: r10) =>
              match field12 r10 with
              | some (ss, '.' :: r12) =>
                let (fds, r13) := grabDigits r12
                if 1 ≤ fds.length ∧ fds.length ≤ 6 ∧ r13 = [] then
                  match digitsVal fds with
                  | some f =>
                    if 1 ≤ y ∧ 1 ≤ mo ∧ mo ≤ 12 ∧ 1 ≤ dy ∧ dy ≤ daysInMonth y mo ∧
                        hh ≤ 23 ∧ mi ≤ 59 ∧ ss ≤ 59 then
                      some ⟨y, mo, dy, hh, mi, ss, f * 10 ^ (6 - fds.length)⟩
                    else none
                  | none => none
                else none
              | _ => none
            | _ => none
          | _ => none
        | _ => none
      | _ => none
    | _, _ => none
  else none

/-- `_parse_offset_file` (`core.py` lines 161-172).  The argument is the
sidecar file: `none` when the file does not exist, otherwise its text.
An existing empty file takes the same `else` branch as a missing one
(`exists(...) and getsize(...)`).  On the parse path the three stripped
lines are converted in source order — `int(offset_data[0])`,
`int(offset_data[1])`, `strptime(offset_data[2])` — and the first
failure raises. -/
def parseOffsetFile (file : Option (List Char)) : Except PyExc LoadedState :=
  match file with
  | none => .ok ⟨none, 0, none⟩
  | some content =>
    if content.length = 0 then .ok ⟨none, 0, none⟩
    else
      let d := (pyLines content).map pyStrip
      match d[0]? with
      | none => .error .indexError
      | some s0 =>
        match parsePyInt s0 with
        | none => .error .valueError
        | some ino =>
          match d[1]? with
          | none => .error .indexError
          | some s1 =>
            match parsePyInt s1 with
            | none => .error .valueError
            | some off =>
              match d[2]? with
              | none => .error .indexError
              | some s2 =>
                match parseTimestamp s2 with
                | none => .error .valueError
                | some t => .ok ⟨some ino, off, some t⟩

/-! ### The `Pygtail` methods -/

/-- `_is_closed` (`core.py` lines 149-159): true when `self._fh` is
unset or the open file object reports itself closed.  (The Python 2.6
`GzipFile.fileobj is None` fallback is the same predicate for the gzip
case.) -/
def PState.isClosed (st : PState) : Bool :=
  match st.fh with
  | none => true
  | some h => h.closed

/-- The open-a-new-handle half of `_filehandle` (`core.py` lines
184-195): pop the head of `self._rotated_logfiles` if any, else use the
live `self.filename`; `gzip.open`/`open` the name (both are modelled on
the stored — for archives decompressed — content; a missing file raises
`FileNotFoundError`, hence `none`); then `seek(self._get_offset())` (a
negative stored offset would make `seek` raise, hence `none`). -/
def openNewHandle (fs : FS) (st : PState) : Option (Handle × PState) :=
  match st.rotatedLogfiles with
  | f :: r =>
    match fs.statIno f with
    | none => none
    | some i =>
      if st.offset < 0 then none
      else some (⟨i, st.offset.toNat, false⟩,
        { st with fh := some ⟨i, st.offset.toNat, false⟩, rotatedLogfiles := r })
  | [] =>
    match fs.statIno st.filename with
    | none => none
    | some i =>
      if st.offset < 0 then none
      else some (⟨i, st.offset.toNat, false⟩,
        { st with fh := some ⟨i, st.offset.toNat, false⟩, rotatedLogfiles := [] })

/-- `_filehandle` (`core.py` lines 179-197): reuse the current handle
unless it is absent or closed, in which case a new one is opened and
seeked. -/
def filehandle (fs : FS) (st : PState) : Option (Handle × PState) :=
  match st.fh with
  | none => openNewHandle fs st
  | some h => if h.closed then openNewHandle fs st else some (h, st)

/-- One `readline()` on an open handle: the next line (with its
terminator) of the handle's inode content starting at the handle's
position, advancing the position; the empty list means end of data. -/
def readline (fs : FS) (h : Handle) : List Char × Handle :=
  let l := takeLine ((fs.inodeContent h.ino).drop h.pos)
  (l, { h with pos := h.pos + l.length })

/-- `_reload` (`core.py` lines 242-244): `self._fh.close()` and
`self._offset = 0`.  (In every call site `self._fh` is set; mapping
over the `Option` totalizes the definition.) -/
def reload (st : PState) : PState :=
  { st with fh := st.fh.map fun h => { h with closed := true }, offset := 0 }

/-- `_check_rotate_truncate` (`core.py` lines 246-267), returning the
new state together with the log messages emitted.  `fstat(fh.fileno())`
is the handle's inode; `stat(self.filename)` raising `OSError` is the
file-moved branch; an inode mismatch reloads; independently, if
`self.copytruncate` and the on-disk size is below the position the
handle had on entry, it reloads (again).  The outer `none` covers only
`_filehandle` itself failing (no handle and the file to open missing). -/
def checkRotateTruncate (fs : FS) (st : PState) : Option (PState × List LogEvent) :=
  match filehandle fs st with
  | none => none
  | some (h, st1) =>
    match fs.stat st1.filename with
    | none => some (reload st1, [.infoFileMoved])
    | some (currentIno, currentSize) =>
      if h.ino ≠ currentIno then
        if (reload st1).copytruncate = true ∧ currentSize < h.pos then
          some (reload (reload st1), [.infoFileRotated, .infoFileTruncated])
        else some (reload st1, [.infoFileRotated])
      else
        if st1.copytruncate = true ∧ currentSize < h.pos then
          some (reload st1, [.infoFileTruncated])
        else some (st1, [])

/-- `_wait_for_update` (`core.py` lines 269-279).  Each element of
`envs` is the filesystem snapshot seen by one loop iteration after its
`time.sleep(self.wait_step)`.  While `wait_timeout < 0 or time_waited <
wait_timeout`: sleep, add `wait_step` to `time_waited`, `readline()`;
a non-empty line zeroes `time_waited` and is returned; otherwise run
`_check_rotate_truncate` and loop.  Falling out of the `while` raises
`StopIteration`. -/
def waitForUpdate (st : PState) : List FS → PullResult
  | [] =>
    if st.waitTimeout < 0 ∨ st.timeWaited < st.waitTimeout then .pending st
    else .stopIteration st
  | fs :: rest =>
    if st.waitTimeout < 0 ∨ st.timeWaited < st.waitTimeout then
      match filehandle fs { st with timeWaited := st.timeWaited + st.waitStep } with
      | none => .oserror
      | some (h, st2) =>
        match readline fs h with
        | (l, h2) =>
          if l.isEmpty then
            match checkRotateTruncate fs { st2 with fh := some h2 } with
            | none => .oserror
            | some (st4, _) => waitForUpdate st4 rest
          else .line l { st2 with fh := some h2, timeWaited := 0 }
    else .stopIteration st

/-- `_get_next_line` (`core.py` lines 281-288): `readline()`; a
non-empty line is returned as is; on empty, raise `StopIteration` while
catching up, otherwise run the rotation/truncation detector and enter
the wait loop. -/
def getNextLine (fs : FS) (envs : List FS) (st : PState) : PullResult :=
  match filehandle fs st with
  | none => .oserror
  | some (h, st1) =>
    match readline fs h with
    | (l, h2) =>
      if l.isEmpty then
        if st1.catchingUp then .stopIteration { st1 with fh := some h2 }
        else
          match checkRotateTruncate fs { st1 with fh := some h2 } with
          | none => .oserror
          | some (st3, _) => waitForUpdate st3 envs
      else .line l { st1 with fh := some h2 }

/-- `_update_offset_file` (`core.py` lines 199-215): a no-op while
`_is_closed()`; otherwise overwrite the sidecar with
`stat(self.filename).st_ino`, `self._filehandle().tell()` and
`datetime.now()` (the `now` argument).  The sidecar file is modelled by
the record of the three fields it holds (`none` = never written /
absent). -/
def updateOffsetFile (fs : FS) (now : Timestamp) (st : PState)
    (sc : Option SidecarData) : Option (PState × Option SidecarData) :=
  if st.isClosed then some (st, sc)
  else
    match filehandle fs st with
    | none => none
    | some (h, st1) =>
      match fs.statIno st1.filename with
      | none => none
      | some ino => some (st1, some ⟨ino, h.pos, now⟩)

/-- The body of `next()` after a line was obtained (`core.py` lines
121-124): in paranoid mode persist the cursor, then hand the line out. -/
def finishLine (fs : FS) (now : Timestamp) (l : List Char) (st : PState)
    (sc : Option SidecarData) : Option (NextResult × PState × Option SidecarData) :=
  if st.paranoid then
    match updateOffsetFile fs now st sc with
    | none => none
    | some (st1, sc1) => some (.line l, st1, sc1)
  else some (.line l, st, sc)

/-- `next` (`core.py` lines 95-124).  `StopIteration` from
`_get_next_line` while catching up triggers `_reload()`, recomputing
`_catching_up` from the remaining queue, and one retry; a retry that
also stops persists the cursor and re-raises.  `StopIteration` at the
live file persists the cursor and raises.  A delivered line is passed
through the paranoid-mode persist. -/
def pnext (fs : FS) (envs : List FS) (now : Timestamp) (st : PState)
    (sc : Option SidecarData) : Option (NextResult × PState × Option SidecarData) :=
  match getNextLine fs envs st with
  | .oserror => none
  | .pending _ => none
  | .line l st1 => finishLine fs now l st1 sc
  | .stopIteration st1 =>
    if st1.catchingUp then
      let st2 := reload st1
      let st3 := { st2 with catchingUp := !st2.rotatedLogfiles.isEmpty }
      match getNextLine fs envs st3 with
      | .oserror => none
      | .pending _ => none
      | .line l st4 => finishLine fs now l st4 sc
      | .stopIteration st4 =>
        match updateOffsetFile fs now st4 sc with
        | none => none
        | some (st5, sc5) => some (.stopIteration, st5, sc5)
    else
      match updateOffsetFile fs now st1 sc with
      | none => none
      | some (st2, sc2) => some (.stopIteration, st2, sc2)

/-! ### The rotated-file locator and the constructor -/

/-- CPython `datetime._days_before_year`: days between 0001-01-01 and
January 1 of year `y`. -/
def daysBeforeYear (y : ℕ) : ℕ :=
  (y - 1) * 365 + (y - 1) / 4 - (y - 1) / 100 + (y - 1) / 400

/-- CPython `datetime._days_before_month`: days in year `y` strictly
before month `m`. -/
def daysBeforeMonth (y m : ℕ) : ℕ :=
  (match m with
   | 1 => 0 | 2 => 31 | 3 => 59 | 4 => 90 | 5 => 120 | 6 => 151
   | 7 => 181 | 8 => 212 | 9 => 243 | 10 => 273 | 11 => 304 | _ => 334) +
  (if 2 < m ∧ isLeap y then 1 else 0)

/-- Absolute hour index of a datetime floored to the hour:
`toordinal() * 24 + hour` with CPython's `toordinal = _days_before_year
+ _days_before_month + day`.  `replace(minute=0, second=0,
microsecond=0)` corresponds to discarding the minute/second/microsecond
fields, and `(end - start).total_seconds()/3600` of two floored
datetimes is the difference of their hour indices. -/
def Timestamp.hourIdx (t : Timestamp) : ℤ :=
  ((daysBeforeYear t.year + daysBeforeMonth t.year t.month + t.day) * 24 + t.hour : ℕ)

/-- The `'%Y%m%d%H'` hour label of `self._log_hour_format`, modelled by
the decimal rendering of the absolute hour index (both labelings are
injective functions of the hour, which is all the locator relies on). -/
def logHourStr (h : ℤ) : String :=
  toString h

/-- The candidate name `self._filename_format %
{'filename': ..., 'host_name': ..., 'log_hour': ...}` with
`_filename_format = '%(filename)s_%(host_name)s_%(log_hour)s.gz'`. -/
def archiveName (filename hostName : String) (h : ℤ) : String :=
  filename ++ "_" ++ hostName ++ "_" ++ logHourStr h ++ ".gz"

/-- The `while start < end` loop of `_determine_rotated_logfiles`
(`core.py` lines 229-238), appending each existing candidate and
stepping `start` by one hour.  The fuel is the number of remaining
iterations `(end_ - start).toNat`, which makes the recursion structural
(hence kernel-evaluable) while computing exactly the Python loop. -/
def rotatedScanAux (fs : FS) (filename hostName : String) (start : ℤ) :
    ℕ → List String
  | 0 => []
  | fuel + 1 =>
    let candidate := archiveName filename hostName start
    (if (fs.statIno candidate).isSome then [candidate] else []) ++
      rotatedScanAux fs filename hostName (start + 1) fuel

/-- `_determine_rotated_logfiles` (`core.py` lines 217-240) over hour
indices: `end` is `datetime.now()` floored to the hour, `start` is
`self._last_log` floored to the hour, `elapsed_hours` is their exact
difference in hours; if it is zero the result is empty, otherwise the
scan runs from `start` (inclusive) while `start < end`. -/
def determineRotatedLogfiles (fs : FS) (filename hostName : String)
    (lastLogHour nowHour : ℤ) : List String :=
  let elapsedHours := nowHour - lastLogHour
  if elapsedHours = 0 then []
  else rotatedScanAux fs filename hostName lastLogHour (nowHour - lastLogHour).toNat

/-- `Pygtail.__init__` (`core.py` lines 62-85) for a given sidecar file
text: parse the sidecar (a corrupt one raises out of the constructor),
start with `time_waited = 0.0`, no handle, and — only when a
`_last_log` was loaded — the rotated-logfile queue computed by the
locator, with `_catching_up = bool(self._rotated_logfiles)`.
`nowHour` is `datetime.now()` floored to the hour as an hour index. -/
def pygtailInit (fs : FS) (nowHour : ℤ) (filename hostName : String)
    (paranoid copytruncate : Bool) (waitStep waitTimeout : ℚ)
    (sidecarText : Option (List Char)) : Except PyExc PState :=
  match parseOffsetFile sidecarText with
  | .error e => .error e
  | .ok ls =>
    let rotated :=
      match ls.lastLog with
      | some t => determineRotatedLogfiles fs filename hostName t.hourIdx nowHour
      | none => []
    .ok { filename := filename, paranoid := paranoid, copytruncate := copytruncate,
          waitStep := waitStep, waitTimeout := waitTimeout, timeWaited := 0,
          offset := ls.offset, fh := none, rotatedLogfiles := rotated,
          catchingUp := !rotated.isEmpty }

/-- A Python text line as produced by reading a well-formed log file:
nonempty, ends in `'\n'`, and contains no interior `'\n'`. -/
def properLine (l : List Char) : Bool :=
  !l.isEmpty && (l.getLast? == some '\n') && !(decide ('\n' ∈ l.dropLast))

/-- The ascending list of hour indices `[a, a+1, ..., b-1]` (empty when
`b ≤ a`): the hour boundaries the locator's `while` loop visits. -/
def hourList (a b : ℤ) : List ℤ :=
  (List.range (b - a).toNat).map fun k : ℕ => a + (k : ℤ)


/-! ### Concrete instances used by witnesses and counterexamples -/

/-- A fixed timestamp value. -/
def ts0 : Timestamp := ⟨2024, 1, 2, 3, 4, 5, 6⟩

/-- An empty filesystem. -/
def fsEmpty : FS := ⟨[], []⟩

/-- A sidecar already holding some cursor. -/
def scSome : Option SidecarData := some ⟨1, 2, ts0⟩

/-- Live path `log` on inode 1 with empty content. -/
def fsLive : FS := ⟨[("log", 1)], [(1, [])]⟩

/-- Live path `log` on inode 1 containing one line. -/
def fsLiveA : FS := ⟨[("log", 1)], [(1, "a\n".data)]⟩

/-- A session with no handle ever opened. -/
def stNoFh : PState := ⟨"log", false, true, 1, 2, 0, 0, none, [], false⟩

/-- A session whose handle has been closed. -/
def stClosedFh : PState := ⟨"log", false, true, 1, 2, 0, 0, some ⟨1, 0, true⟩, [], false⟩

/-- A live session with an open handle at position 0. -/
def stOpen : PState := ⟨"log", false, true, 1, 2, 0, 0, some ⟨1, 0, false⟩, [], false⟩

/-- A live session whose accumulated wait (5) already exceeds the
timeout (2). -/
def stTimedOut : PState := ⟨"log", false, true, 1, 2, 5, 0, some ⟨1, 0, false⟩, [], false⟩

/-- A live session with a negative `wait_timeout`. -/
def stNegTimeout : PState := ⟨"log", false, true, 1, -1, 0, 0, some ⟨1, 0, false⟩, [], false⟩

/-- A session with copy-truncate support disabled whose handle position
(10) is beyond the live file's size (0). -/
def stShrunk : PState := ⟨"log", false, false, 1, 2, 0, 0, some ⟨1, 10, false⟩, [], false⟩

/-- Archives exist for hours 1 and 3 only. -/
def fsArch : FS := ⟨[(archiveName "log" "h" 1, 11), (archiveName "log" "h" 3, 13)], []⟩

/-- The hour-1 archive (inode 7) exists. -/
def fsArchQ : FS := ⟨[(archiveName "log" "h" 1, 7)], [(7, "u\nv\n".data)]⟩

/-- A freshly constructed session that loaded persisted offset 5 and
found the hour-1 archive pending. -/
def stQueued : PState :=
  ⟨"log", false, true, 1, 2, 0, 5, none, [archiveName "log" "h" 1], true⟩

/-- The live path was rotated: `log` now designates fresh inode 7 with
new content, while old inode 5 (on which the session's handle sits at
offset 4 = end of its content) still holds the old content. -/
def fsRot : FS := ⟨[("log", 7)], [(5, "a\nb\n".data), (7, "x\ny\n".data)]⟩

/-- The tailing session for the rotation/truncation scenarios: open
handle on inode 5 at position 4. -/
def stRot : PState := ⟨"log", false, true, 1, 2, 0, 0, some ⟨5, 4, false⟩, [], false⟩

/-- The live file was truncated in place: same inode 5, its content now
shorter (2 bytes) than the handle position (4). -/
def fsTrunc : FS := ⟨[("log", 5)], [(5, "z\n".data)]⟩

/-- The lines of the paranoid-mode scenario's live file. -/
def lsC8 : List (List Char) := ["a\n".data, "b\n".data, "c\n".data]

/-- Live path `log` on inode 3 holding those three lines. -/
def fsC8 : FS := ⟨[("log", 3)], [(3, lsC8.flatten)]⟩

/-- A paranoid session on `fsC8` with its handle at position 0. -/
def stC8 : PState := ⟨"log", true, true, 1, 2, 0, 0, some ⟨3, 0, false⟩, [], false⟩

/-- Sidecar text recording inode 3, offset 2, timestamp `ts0`. -/
def textC8 : List Char := "3\n2\n2024-01-02T03:04:05.000006\n".data

/-! ### Helper lemmas -/

theorem reload_reload (st : PState) : reload (reload st) = reload st := by
  cases st with
  | mk fn p ct ws wt tw off fh rot cu => cases fh <;> simp [reload]

theorem reload_offset (st : PState) : (reload st).offset = 0 := rfl

theorem reload_isClosed (st : PState) (h : Handle) (hfh : st.fh = some h) :
    (reload st).isClosed = true := by
  simp [reload, PState.isClosed, hfh]

theorem filehandle_open (fs : FS) (st : PState) (h : Handle)
    (hfh : st.fh = some h) (hcl : h.closed = false) :
    filehandle fs st = some (h, st) := by
  simp [filehandle, hfh, hcl]

theorem set_fh_self (st : PState) (h : Handle) (hfh : st.fh = some h) :
    { st with fh := some h } = st := by
  cases st; simp_all

theorem filehandle_proj (fs : FS) (st : PState) (h : Handle) (st' : PState)
    (heq : filehandle fs st = some (h, st')) :
    st'.fh = some h ∧ st'.timeWaited = st.timeWaited ∧ st'.waitStep = st.waitStep ∧
    st'.waitTimeout = st.waitTimeout ∧ st'.catchingUp = st.catchingUp ∧
    st'.filename = st.filename ∧ st'.paranoid = st.paranoid ∧
    st'.copytruncate = st.copytruncate := by
  unfold filehandle openNewHandle at heq
  split at heq <;> try split at heq
  all_goals try split at heq
  all_goals try split at heq
  all_goals simp_all
  all_goals first
    | (obtain ⟨h0, h1, h2⟩ := heq; subst h2; simp [← h1])
    | (obtain ⟨h1, h2⟩ := heq; subst h2; simp [← h1])

theorem readline_eof (fs : FS) (h : Handle)
    (hpos : (fs.inodeContent h.ino).length ≤ h.pos) :
    readline fs h = ([], h) := by
  cases h with
  | mk i p c =>
    simp only [readline]
    rw [List.drop_eq_nil_of_le hpos]
    simp [takeLine]

theorem takeLine_ne_nil (l : List Char) (hl : l ≠ []) : takeLine l ≠ [] := by
  cases l with
  | nil => exact absurd rfl hl
  | cons c rest => by_cases hc : c = '\n' <;> simp [takeLine, hc]

theorem checkRotateTruncate_proj (fs : FS) (st st2 : PState) (evs : List LogEvent)
    (heq : checkRotateTruncate fs st = some (st2, evs)) :
    st2.timeWaited = st.timeWaited ∧ st2.waitStep = st.waitStep ∧
    st2.waitTimeout = st.waitTimeout ∧ st2.catchingUp = st.catchingUp ∧
    st2.filename = st.filename ∧ st2.paranoid = st.paranoid ∧
    st2.copytruncate = st.copytruncate := by
  unfold checkRotateTruncate at heq
  rcases hfh : filehandle fs st with _ | ⟨h, st1⟩ <;> rw [hfh] at heq
  · simp at heq
  · obtain ⟨-, p2, p3, p4, p5, p6, p7, p8⟩ := filehandle_proj fs st h st1 hfh
    simp only [] at heq
    split at heq <;> try split at heq
    all_goals try split at heq
    all_goals simp only [Option.some.injEq, Prod.mk.injEq] at heq
    all_goals obtain ⟨h1, -⟩ := heq
    all_goals subst h1
    all_goals simp_all [reload]

theorem checkRotateTruncate_rotated (fs : FS) (st : PState) (h : Handle)
    (ci cs : ℕ) (hfh : st.fh = some h) (hcl : h.closed = false)
    (hst : fs.stat st.filename = some (ci, cs)) (hne : h.ino ≠ ci) :
    checkRotateTruncate fs st =
      some (reload st,
        if (reload st).copytruncate = true ∧ cs < h.pos then
          [.infoFileRotated, .infoFileTruncated]
        else [.infoFileRotated]) := by
  unfold checkRotateTruncate
  simp only [filehandle_open fs st h hfh hcl, hst]
  rw [if_pos hne]
  split
  · rw [reload_reload]
  · rfl

theorem checkRotateTruncate_truncated (fs : FS) (st : PState) (h : Handle)
    (cs : ℕ) (hfh : st.fh = some h) (hcl : h.closed = false)
    (hst : fs.stat st.filename = some (h.ino, cs))
    (hct : st.copytruncate = true) (hsz : cs < h.pos) :
    checkRotateTruncate fs st = some (reload st, [.infoFileTruncated]) := by
  unfold checkRotateTruncate
  simp only [filehandle_open fs st h hfh hcl, hst]
  simp [hct, hsz]

theorem checkRotateTruncate_exists (fs : FS) (st : PState) (h : Handle)
    (hfh : st.fh = some h) (hcl : h.closed = false) :
    ∃ st2 evs, checkRotateTruncate fs st = some (st2, evs) := by
  unfold checkRotateTruncate
  simp only [filehandle_open fs st h hfh hcl]
  rcases hstat : fs.stat st.filename with _ | ⟨ci, cs⟩ <;> simp only [hstat]
  · exact ⟨_, _, rfl⟩
  · by_cases hne : h.ino ≠ ci
    · rw [if_pos hne]
      by_cases htr : (reload st).copytruncate = true ∧ cs < h.pos
      · rw [if_pos htr]; exact ⟨_, _, rfl⟩
      · rw [if_neg htr]; exact ⟨_, _, rfl⟩
    · rw [if_neg hne]
      by_cases htr : st.copytruncate = true ∧ cs < h.pos
      · rw [if_pos htr]; exact ⟨_, _, rfl⟩
      · rw [if_neg htr]; exact ⟨_, _, rfl⟩

theorem waitForUpdate_timeout (st : PState) (envs : List FS)
    (h0 : 0 ≤ st.waitTimeout) (h1 : st.waitTimeout ≤ st.timeWaited) :
    waitForUpdate st envs = .stopIteration st := by
  have hcond : ¬(st.waitTimeout < 0 ∨ st.timeWaited < st.waitTimeout) := by
    rintro (hc | hc)
    · exact absurd h0 (not_le.mpr hc)
    · exact absurd h1 (not_le.mpr hc)
  cases envs <;> simp [waitForUpdate, hcond]

theorem waitForUpdate_failed_poll (st : PState) (fs : FS) (rest : List FS)
    (h : Handle) (st2 st4 : PState) (evs : List LogEvent)
    (hcond : st.waitTimeout < 0 ∨ st.timeWaited < st.waitTimeout)
    (hfe : filehandle fs { st with timeWaited := st.timeWaited + st.waitStep } =
      some (h, st2))
    (heof : (fs.inodeContent h.ino).length ≤ h.pos)
    (hchk : checkRotateTruncate fs st2 = some (st4, evs)) :
    waitForUpdate st (fs :: rest) = waitForUpdate st4 rest := by
  conv_lhs => unfold waitForUpdate
  rw [if_pos hcond]
  simp only [hfe, readline_eof fs h heof, List.isEmpty_nil, if_true,
    set_fh_self st2 h (filehandle_proj _ _ _ _ hfe).1, hchk]

theorem waitForUpdate_success_poll (st : PState) (fs : FS) (rest : List FS)
    (h h2 : Handle) (st2 : PState) (l : List Char)
    (hcond : st.waitTimeout < 0 ∨ st.timeWaited < st.waitTimeout)
    (hfe : filehandle fs { st with timeWaited := st.timeWaited + st.waitStep } =
      some (h, st2))
    (hr : readline fs h = (l, h2)) (hl : l ≠ []) :
    waitForUpdate st (fs :: rest) = .line l { st2 with fh := some h2, timeWaited := 0 } := by
  conv_lhs => unfold waitForUpdate
  rw [if_pos hcond]
  simp only [hfe, hr]
  rw [if_neg (by simpa using hl)]

theorem waitForUpdate_line_timeWaited :
    ∀ (envs : List FS) (st : PState) (l : List Char) (st' : PState),
      waitForUpdate st envs = .line l st' → st'.timeWaited = 0 := by
  intro envs
  induction envs with
  | nil =>
    intro st l st' h
    unfold waitForUpdate at h
    split at h <;> simp at h
  | cons fs rest ih =>
    intro st l st' h
    unfold waitForUpdate at h
    split at h
    · rcases hfe : filehandle fs { st with timeWaited := st.timeWaited + st.waitStep }
        with _ | ⟨hh, st2⟩ <;> simp only [hfe] at h
      · simp at h
      · rcases hr : readline fs hh with ⟨l0, h2⟩
        simp only [hr] at h
        by_cases hl : l0.isEmpty = true
        · rw [if_pos hl] at h
          rcases hchk : checkRotateTruncate fs { st2 with fh := some h2 }
            with _ | ⟨st4, evs⟩ <;> simp only [hchk] at h
          · simp at h
          · exact ih st4 l st' h
        · rw [if_neg hl] at h
          simp only [PullResult.line.injEq] at h
          rw [← h.2]
    · simp at h

theorem waitForUpdate_neg_no_stop :
    ∀ (envs : List FS) (st st' : PState), st.waitTimeout < 0 →
      waitForUpdate st envs ≠ .stopIteration st' := by
  intro envs
  induction envs with
  | nil =>
    intro st st' hneg h
    unfold waitForUpdate at h
    rw [if_pos (Or.inl hneg)] at h
    simp at h
  | cons fs rest ih =>
    intro st st' hneg h
    unfold waitForUpdate at h
    rw [if_pos (Or.inl hneg)] at h
    rcases hfe : filehandle fs { st with timeWaited := st.timeWaited + st.waitStep }
      with _ | ⟨hh, st2⟩ <;> simp only [hfe] at h
    · simp at h
    · rcases hr : readline fs hh with ⟨l0, h2⟩
      simp only [hr] at h
      by_cases hl : l0.isEmpty = true
      · rw [if_pos hl] at h
        rcases hchk : checkRotateTruncate fs { st2 with fh := some h2 }
          with _ | ⟨st4, evs⟩ <;> simp only [hchk] at h
        · simp at h
        · have hwt4 : st4.waitTimeout = st.waitTimeout := by
            have c1 := (checkRotateTruncate_proj _ _ _ _ hchk).2.2.1
            have c2 := (filehandle_proj _ _ _ _ hfe).2.2.2.1
            simp only [c1, c2]
          exact ih st4 st' (hwt4 ▸ hneg) h
      · rw [if_neg hl] at h
        simp at h

theorem waitForUpdate_mono :
    ∀ (envs : List FS) (st st' : PState), 0 ≤ st.waitStep →
      (waitForUpdate st envs = .stopIteration st' ∨
        waitForUpdate st envs = .pending st') →
      st.timeWaited ≤ st'.timeWaited := by
  intro envs
  induction envs with
  | nil =>
    intro st st' hws h
    unfold waitForUpdate at h
    by_cases hc : st.waitTimeout < 0 ∨ st.timeWaited < st.waitTimeout
    · rw [if_pos hc] at h
      rcases h with h | h
      · simp at h
      · simp only [PullResult.pending.injEq] at h
        exact le_of_eq (congrArg PState.timeWaited h)
    · rw [if_neg hc] at h
      rcases h with h | h
      · simp only [PullResult.stopIteration.injEq] at h
        exact le_of_eq (congrArg PState.timeWaited h)
      · simp at h
  | cons fs rest ih =>
    intro st st' hws h
    unfold waitForUpdate at h
    by_cases hc : st.waitTimeout < 0 ∨ st.timeWaited < st.waitTimeout
    · rw [if_pos hc] at h
      rcases hfe : filehandle fs { st with timeWaited := st.timeWaited + st.waitStep }
        with _ | ⟨hh, st2⟩ <;> simp only [hfe] at h
      · rcases h with h | h <;> simp at h
      · rcases hr : readline fs hh with ⟨l0, h2⟩
        simp only [hr] at h
        by_cases hl : l0.isEmpty = true
        · rw [if_pos hl] at h
          rcases hchk : checkRotateTruncate fs { st2 with fh := some h2 }
            with _ | ⟨st4, evs⟩ <;> simp only [hchk] at h
          · rcases h with h | h <;> simp at h
          · have c1 := (checkRotateTruncate_proj _ _ _ _ hchk).1
            have c2 := (filehandle_proj _ _ _ _ hfe).2.1
            have c3 := (checkRotateTruncate_proj _ _ _ _ hchk).2.1
            have c4 := (filehandle_proj _ _ _ _ hfe).2.2.1
            have htw4 : st4.timeWaited = st.timeWaited + st.waitStep := by
              simp only [c1, c2]
            have hws4 : 0 ≤ st4.waitStep := by
              simp only [c3, c4]; exact hws
            have hle := ih st4 st' hws4 h
            rw [htw4] at hle
            linarith
        · rw [if_neg hl] at h
          rcases h with h | h <;> simp at h
    · rw [if_neg hc] at h
      rcases h with h | h
      · simp only [PullResult.stopIteration.injEq] at h
        exact le_of_eq (congrArg PState.timeWaited h)
      · simp at h

theorem getNextLine_eof_live (fs : FS) (envs : List FS) (st st3 : PState)
    (h : Handle) (evs : List LogEvent)
    (hfh : st.fh = some h) (hcl : h.closed = false)
    (heof : (fs.inodeContent h.ino).length ≤ h.pos)
    (hcu : st.catchingUp = false)
    (hchk : checkRotateTruncate fs st = some (st3, evs)) :
    getNextLine fs envs st = waitForUpdate st3 envs := by
  unfold getNextLine
  simp only [filehandle_open fs st h hfh hcl, readline_eof fs h heof,
    List.isEmpty_nil, if_true, set_fh_self st h hfh]
  rw [hcu]
  rw [if_neg (by simp)]
  simp only [hchk]

theorem getNextLine_line (fs : FS) (envs : List FS) (st : PState)
    (h h2 : Handle) (l : List Char)
    (hfh : st.fh = some h) (hcl : h.closed = false)
    (hr : readline fs h = (l, h2)) (hl : l ≠ []) :
    getNextLine fs envs st = .line l { st with fh := some h2 } := by
  unfold getNextLine
  simp only [filehandle_open fs st h hfh hcl, hr]
  rw [if_neg (by simpa using hl)]

theorem getNextLine_eof_catching (fs : FS) (envs : List FS) (st : PState)
    (h : Handle)
    (hfh : st.fh = some h) (hcl : h.closed = false)
    (heof : (fs.inodeContent h.ino).length ≤ h.pos)
    (hcu : st.catchingUp = true) :
    getNextLine fs envs st = .stopIteration st := by
  unfold getNextLine
  simp only [filehandle_open fs st h hfh hcl, readline_eof fs h heof,
    List.isEmpty_nil, if_true, set_fh_self st h hfh]
  rw [hcu]
  simp

/-! ### Lines of a well-formed log file -/

theorem takeLine_append_newline (s t : List Char) (hs : '\n' ∉ s) :
    takeLine (s ++ '\n' :: t) = s ++ ['\n'] := by
  induction s with
  | nil => simp [takeLine]
  | cons c cs ih =>
    have hc : c ≠ '\n' := by
      intro hcc; exact hs (hcc ▸ List.mem_cons_self c cs)
    have hcs : '\n' ∉ cs := fun hm => hs (List.mem_cons_of_mem c hm)
    simp [takeLine, hc, ih hcs]

theorem properLine_shape (l : List Char) (hp : properLine l = true) :
    l = l.dropLast ++ ['\n'] ∧ '\n' ∉ l.dropLast := by
  unfold properLine at hp
  simp only [Bool.and_eq_true, Bool.not_eq_true', List.isEmpty_eq_false,
    beq_iff_eq, decide_eq_false_iff_not] at hp
  obtain ⟨⟨hne, hlast⟩, hcont⟩ := hp
  refine ⟨?_, hcont⟩
  have hlast' : l.getLast hne = '\n' := by
    have hx := List.getLast?_eq_getLast l hne
    rw [hx] at hlast
    simpa using hlast
  conv_lhs => rw [← List.dropLast_append_getLast hne]
  rw [hlast']

theorem flatten_drop_take (LS : List (List Char)) (k : ℕ) :
    LS.flatten.drop ((LS.take k).flatten).length = (LS.drop k).flatten := by
  have h1 : LS.flatten = (LS.take k).flatten ++ (LS.drop k).flatten := by
    rw [← List.flatten_append, List.take_append_drop]
  rw [h1, List.drop_left]

theorem lenTake_succ (LS : List (List Char)) (k : ℕ) (hk : k < LS.length) :
    ((LS.take (k + 1)).flatten).length =
      ((LS.take k).flatten).length + (LS.get ⟨k, hk⟩).length := by
  have hk' : k < (LS.map List.length).length := by simpa using hk
  simp only [List.length_flatten, List.map_take]
  rw [List.sum_take_succ _ k hk']
  simp [List.get_eq_getElem]

theorem readline_flatten (fs : FS) (i k : ℕ) (LS : List (List Char))
    (hcontent : fs.inodeContent i = LS.flatten)
    (hall : ∀ l ∈ LS, properLine l = true) (hk : k < LS.length) :
    readline fs ⟨i, ((LS.take k).flatten).length, false⟩ =
      (LS.get ⟨k, hk⟩, ⟨i, ((LS.take (k + 1)).flatten).length, false⟩) := by
  obtain ⟨hshape, hnomem⟩ :=
    properLine_shape (LS.get ⟨k, hk⟩) (hall _ (LS.get_mem k hk))
  have hdrop : LS.drop k = LS.get ⟨k, hk⟩ :: LS.drop (k + 1) := by
    rw [List.drop_eq_getElem_cons hk]
    simp [List.get_eq_getElem]
  have hline :
      takeLine (LS.flatten.drop ((LS.take k).flatten).length) = LS.get ⟨k, hk⟩ := by
    rw [flatten_drop_take, hdrop, List.flatten_cons]
    conv_lhs => rw [hshape, List.append_assoc, List.singleton_append]
    rw [takeLine_append_newline _ _ hnomem, ← hshape]
  unfold readline
  simp only [hcontent, hline]
  rw [lenTake_succ LS k hk]

/-! ### Locator characterization -/

theorem rotatedScanAux_spec (fs : FS) (filename hostName : String) :
    ∀ (fuel : ℕ) (start : ℤ),
      rotatedScanAux fs filename hostName start fuel =
        (((List.range fuel).map fun k : ℕ =>
            archiveName filename hostName (start + (k : ℤ))).filter
          fun n => (fs.statIno n).isSome) := by
  intro fuel
  induction fuel with
  | zero => intro start; simp [rotatedScanAux]
  | succ n ih =>
    intro start
    rw [List.range_succ_eq_map, List.map_cons, List.filter_cons, List.map_map]
    have hmaps :
        (List.range n).map
            ((fun k : ℕ => archiveName filename hostName (start + (k : ℤ))) ∘ Nat.succ) =
          (List.range n).map
            (fun k : ℕ => archiveName filename hostName (start + 1 + (k : ℤ))) := by
      apply List.map_congr_left
      intro a _
      simp only [Function.comp_apply]
      congr 1
      push_cast
      ring
    rw [hmaps, ← ih (start + 1)]
    conv_lhs => unfold rotatedScanAux
    by_cases hex : (fs.statIno (archiveName filename hostName start)).isSome
    · simp [hex]
    · simp [hex]

theorem determineRotatedLogfiles_spec (fs : FS) (filename hostName : String)
    (a b : ℤ) :
    determineRotatedLogfiles fs filename hostName a b =
      ((hourList a b).map (archiveName filename hostName)).filter
        fun n => (fs.statIno n).isSome := by
  unfold determineRotatedLogfiles hourList
  by_cases he : b - a = 0
  · rw [if_pos he]
    have h0 : (b - a).toNat = 0 := by omega
    simp [h0]
  · rw [if_neg he, rotatedScanAux_spec]
    simp [List.map_map, Function.comp_def]

theorem filehandle_reopen_live (fs : FS) (st : PState) (i : ℕ)
    (hcl : st.isClosed = true) (hrot : st.rotatedLogfiles = [])
    (hstat : fs.statIno st.filename = some i) (hoff : ¬st.offset < 0) :
    filehandle fs st =
      some (⟨i, st.offset.toNat, false⟩,
        { st with fh := some ⟨i, st.offset.toNat, false⟩, rotatedLogfiles := [] }) := by
  unfold filehandle openNewHandle
  unfold PState.isClosed at hcl
  rcases hfh : st.fh with _ | h0
  · simp only [hrot, hstat]
    rw [if_neg hoff]
  · rw [hfh] at hcl
    have hcl2 : h0.closed = true := hcl
    simp only [hcl2, hrot, hstat]
    rw [if_pos trivial, if_neg hoff]

theorem filehandle_reopen_archive (fs : FS) (st : PState) (i : ℕ)
    (f : String) (r : List String)
    (hcl : st.isClosed = true) (hrot : st.rotatedLogfiles = f :: r)
    (hstat : fs.statIno f = some i) (hoff : ¬st.offset < 0) :
    filehandle fs st =
      some (⟨i, st.offset.toNat, false⟩,
        { st with fh := some ⟨i, st.offset.toNat, false⟩, rotatedLogfiles := r }) := by
  unfold filehandle openNewHandle
  unfold PState.isClosed at hcl
  rcases hfh : st.fh with _ | h0
  · simp only [hrot, hstat]
    rw [if_neg hoff]
  · rw [hfh] at hcl
    have hcl2 : h0.closed = true := hcl
    simp only [hcl2, hrot, hstat]
    rw [if_pos trivial, if_neg hoff]

theorem updateOffsetFile_closed (fs : FS) (now : Timestamp) (st : PState)
    (sc : Option SidecarData) (hcl : st.isClosed = true) :
    updateOffsetFile fs now st sc = some (st, sc) := by
  unfold updateOffsetFile
  rw [if_pos hcl]

theorem updateOffsetFile_open (fs : FS) (now : Timestamp) (st : PState)
    (sc : Option SidecarData) (h : Handle) (ino : ℕ)
    (hfh : st.fh = some h) (hcl : h.closed = false)
    (hstat : fs.statIno st.filename = some ino) :
    updateOffsetFile fs now st sc = some (st, some ⟨ino, h.pos, now⟩) := by
  unfold updateOffsetFile
  rw [if_neg (by simp [PState.isClosed, hfh, hcl])]
  simp only [filehandle_open fs st h hfh hcl, hstat]

theorem pnext_line (fs : FS) (envs : List FS) (now : Timestamp) (st : PState)
    (sc : Option SidecarData) (l : List Char) (st1 : PState) (h1 : Handle)
    (ino : ℕ)
    (hg : getNextLine fs envs st = .line l st1)
    (hfh1 : st1.fh = some h1) (hcl1 : h1.closed = false)
    (hstat : fs.statIno st1.filename = some ino) :
    pnext fs envs now st sc =
      some (.line l, st1,
        if st1.paranoid = true then some ⟨ino, h1.pos, now⟩ else sc) := by
  unfold pnext
  simp only [hg]
  unfold finishLine
  by_cases hp : st1.paranoid = true
  · rw [if_pos hp, if_pos hp]
    simp only [updateOffsetFile_open fs now st1 sc h1 ino hfh1 hcl1 hstat]
  · rw [if_neg hp, if_neg hp]

theorem filehandle_closed (fs : FS) (st : PState) (hcl : st.isClosed = true) :
    filehandle fs st = openNewHandle fs st := by
  unfold filehandle
  unfold PState.isClosed at hcl
  rcases hfh : st.fh with _ | h0
  · rfl
  · rw [hfh] at hcl
    exact if_pos hcl

theorem getNextLine_line_fh (fs : FS) (envs : List FS) (st st1 : PState)
    (h h2 : Handle) (l : List Char)
    (hfe : filehandle fs st = some (h, st1))
    (hr : readline fs h = (l, h2)) (hl : l ≠ []) :
    getNextLine fs envs st = .line l { st1 with fh := some h2 } := by
  unfold getNextLine
  simp only [hfe, hr]
  rw [if_neg (by simpa using hl)]

theorem properLine_ne_nil (l : List Char) (hp : properLine l = true) : l ≠ [] := by
  intro hnil
  subst hnil
  simp [properLine] at hp

theorem pygtailInit_fields (fs : FS) (nowHour : ℤ) (fname host : String)
    (p ct : Bool) (ws wt : ℚ) (text : Option (List Char)) (st : PState)
    (heq : pygtailInit fs nowHour fname host p ct ws wt text = .ok st) :
    st.timeWaited = 0 ∧ st.fh = none ∧ st.filename = fname ∧ st.paranoid = p ∧
    ∃ ls, parseOffsetFile text = .ok ls ∧ st.offset = ls.offset := by
  unfold pygtailInit at heq
  rcases hp : parseOffsetFile text with e | ls <;> rw [hp] at heq
  · simp at heq
  · simp only [Except.ok.injEq] at heq
    subst heq
    exact ⟨rfl, rfl, rfl, rfl, ls, rfl, rfl⟩

theorem pygtailInit_same_hour (fs : FS) (fname host : String) (p ct : Bool)
    (ws wt : ℚ) (text : Option (List Char)) (i off : ℤ) (ts : Timestamp)
    (hp : parseOffsetFile text = .ok ⟨some i, off, some ts⟩) :
    pygtailInit fs ts.hourIdx fname host p ct ws wt text =
      .ok ⟨fname, p, ct, ws, wt, 0, off, none, [], false⟩ := by
  unfold pygtailInit
  rw [hp]
  simp only []
  unfold determineRotatedLogfiles
  rw [if_pos (sub_self ts.hourIdx)]
  rfl

/-! ### Claims -/

/-- C7: every call to the cursor-persist operation (`_update_offset_file`)
made while no file handle is currently open — either no handle was ever
opened (`self._fh` unset) or the open handle has been closed — is a
no-op: the sidecar contents are returned unchanged and no write occurs,
and the instance state is also unchanged. -/
theorem C7_update_noop_when_closed :
    (∀ (fs : FS) (now : Timestamp) (st : PState) (sc : Option SidecarData),
      st.fh = none → updateOffsetFile fs now st sc = some (st, sc)) ∧
    (∀ (fs : FS) (now : Timestamp) (st : PState) (sc : Option SidecarData)
        (h : Handle),
      st.fh = some h → h.closed = true →
      updateOffsetFile fs now st sc = some (st, sc)) := by
  constructor
  · intro fs now st sc hfh
    exact updateOffsetFile_closed fs now st sc (by simp [PState.isClosed, hfh])
  · intro fs now st sc h hfh hcl
    exact updateOffsetFile_closed fs now st sc (by simp [PState.isClosed, hfh, hcl])

/-- Witness for C7 at concrete inputs: a session that never opened a
handle and one whose handle is closed; in both cases the sidecar
`scSome` comes back untouched. -/
theorem C7_witness :
    stNoFh.fh = none ∧
    updateOffsetFile fsEmpty ts0 stNoFh scSome = some (stNoFh, scSome) ∧
    stClosedFh.fh = some ⟨1, 0, true⟩ ∧
    updateOffsetFile fsEmpty ts0 stClosedFh scSome = some (stClosedFh, scSome) :=
  ⟨by decide,
   C7_update_noop_when_closed.1 fsEmpty ts0 stNoFh scSome (by decide),
   by decide,
   C7_update_noop_when_closed.2 fsEmpty ts0 stClosedFh scSome ⟨1, 0, true⟩
     (by decide) (by decide)⟩

/-- C5: with copy-truncate support disabled, when the live file (same
inode) has shrunk below the handle's read position, the detector leaves
the state completely unchanged (no rewind, no handle reset) and emits
no log message at all — in particular no warning-level signal is
surfaced (the detector's message type has no warning-level member).
The program's own `--no-copytruncate` help text promises "if the log
file shrinks, print a warning", which the code does not do; this
theorem documents the divergence. -/
theorem C5_no_warning_no_reset :
    (∀ (fs : FS) (st : PState) (h : Handle) (cs : ℕ),
      st.copytruncate = false → st.fh = some h → h.closed = false →
      fs.stat st.filename = some (h.ino, cs) → cs < h.pos →
      checkRotateTruncate fs st = some (st, [])) ∧
    (∀ e : LogEvent, e.level ≠ LogLevel.warning) := by
  constructor
  · intro fs st h cs hct hfh hcl hstat hsz
    unfold checkRotateTruncate
    simp only [filehandle_open fs st h hfh hcl, hstat]
    rw [if_neg (by simp)]
    rw [if_neg (by simp [hct])]
  · intro e
    cases e <;> simp [LogEvent.level]

/-- Witness for C5: live file of size 0, open handle at position 10,
copy-truncate disabled — the detector returns the state unchanged with
an empty message list. -/
theorem C5_witness :
    stShrunk.copytruncate = false ∧ (0 : ℕ) < 10 ∧
    checkRotateTruncate fsLive stShrunk = some (stShrunk, []) :=
  ⟨by decide, by decide,
   C5_no_warning_no_reset.1 fsLive stShrunk ⟨1, 10, false⟩ 0 (by decide)
     (by decide) (by decide) (by decide) (by decide)⟩

/-- C6: loading the sidecar (`_parse_offset_file`): a missing file and
an existing-but-empty file both yield the zero cursor (`offset = 0`,
no inode, no timestamp); a non-empty file is split into stripped lines
and its first three fields are parsed as decimal integer inode, decimal
integer offset, and microsecond-precision timestamp
(`%Y-%m-%dT%H:%M:%S.%f`), succeeding with exactly those values when all
three parse; and the load fails loudly with an exception (IndexError /
ValueError — the spec's `CorruptState`) whenever any of the three
fields is missing or unparsable, rather than silently resetting to
zero. -/
theorem C6_offset_file_load :
    parseOffsetFile none = .ok ⟨none, 0, none⟩ ∧
    (∀ content : List Char, content.length = 0 →
      parseOffsetFile (some content) = .ok ⟨none, 0, none⟩) ∧
    (∀ (content : List Char) (i o : ℤ) (t : Timestamp), content ≠ [] →
      (((pyLines content).map pyStrip)[0]?).bind parsePyInt = some i →
      (((pyLines content).map pyStrip)[1]?).bind parsePyInt = some o →
      (((pyLines content).map pyStrip)[2]?).bind parseTimestamp = some t →
      parseOffsetFile (some content) = .ok ⟨some i, o, some t⟩) ∧
    (∀ content : List Char, content ≠ [] →
      ((((pyLines content).map pyStrip)[0]?).bind parsePyInt = none ∨
       (((pyLines content).map pyStrip)[1]?).bind parsePyInt = none ∨
       (((pyLines content).map pyStrip)[2]?).bind parseTimestamp = none) →
      ∃ e, parseOffsetFile (some content) = .error e) := by
  refine ⟨rfl, ?_, ?_, ?_⟩
  · intro content hlen
    simp only [parseOffsetFile]
    rw [if_pos hlen]
  · intro content i o t hne h0 h1 h2
    obtain ⟨s0, hs0, hp0⟩ := Option.bind_eq_some.mp h0
    obtain ⟨s1, hs1, hp1⟩ := Option.bind_eq_some.mp h1
    obtain ⟨s2, hs2, hp2⟩ := Option.bind_eq_some.mp h2
    simp only [parseOffsetFile]
    rw [if_neg (by simpa using hne)]
    simp only [hs0, hp0, hs1, hp1, hs2, hp2]
  · intro content hne hbad
    simp only [parseOffsetFile]
    rw [if_neg (by simpa using hne)]
    rcases h0 : ((pyLines content).map pyStrip)[0]? with _ | s0
    · simp only [h0]
      exact ⟨_, rfl⟩
    · simp only [h0]
      rcases hp0 : parsePyInt s0 with _ | v0
      · simp only [hp0]
        exact ⟨_, rfl⟩
      · simp only [hp0]
        rcases h1 : ((pyLines content).map pyStrip)[1]? with _ | s1
        · simp only [h1]
          exact ⟨_, rfl⟩
        · simp only [h1]
          rcases hp1 : parsePyInt s1 with _ | v1
          · simp only [hp1]
            exact ⟨_, rfl⟩
          · simp only [hp1]
            rcases h2 : ((pyLines content).map pyStrip)[2]? with _ | s2
            · simp only [h2]
              exact ⟨_, rfl⟩
            · simp only [h2]
              rcases hp2 : parseTimestamp s2 with _ | v2
              · simp only [hp2]
                exact ⟨_, rfl⟩
              · exfalso
                rcases hbad with hb | hb | hb
                · rw [h0] at hb
                  simp [hp0] at hb
                · rw [h1] at hb
                  simp [hp1] at hb
                · rw [h2] at hb
                  simp [hp2] at hb

/-- Witness for C6: a well-formed sidecar text parses to its three
fields; a sidecar with a missing third field and one with a
non-numeric offset field both fail loudly. -/
theorem C6_witness :
    parseOffsetFile (some textC8) = .ok ⟨some 3, 2, some ts0⟩ ∧
    (∃ e, parseOffsetFile (some "3\n2\n".data) = .error e) ∧
    (∃ e, parseOffsetFile (some "3\nxyz\n2024-01-02T03:04:05.000006\n".data) =
      .error e) :=
  ⟨C6_offset_file_load.2.2.1 textC8 3 2 ts0 (by decide) (by decide) (by decide)
     (by decide),
   C6_offset_file_load.2.2.2 "3\n2\n".data (by decide) (by decide),
   C6_offset_file_load.2.2.2 "3\nxyz\n2024-01-02T03:04:05.000006\n".data
     (by decide) (by decide)⟩

/-- C2 counterexample: last-read hour `H0 = 0`, current hour `H0+3 = 3`,
archives on disk for hours 1 and 3 but not 0 or 2.  The claim says the
result is `[archive(1), archive(3)]`; the code returns `[archive(1)]`
only, because the scan covers the hour boundaries from `H0` inclusive
to the current hour exclusive, so hour 3 is never considered. -/
theorem C2_counterexample :
    determineRotatedLogfiles fsArch "log" "h" 0 3 = [archiveName "log" "h" 1] ∧
    ([archiveName "log" "h" 1] : List String) ≠
      [archiveName "log" "h" 1, archiveName "log" "h" 3] := by
  constructor
  · decide
  · decide

/-- C2 amended: `_determine_rotated_logfiles` scans the hour boundaries
from `floor(last_read)` *inclusive* up to `floor(now)` *exclusive*, in
ascending order, including each boundary's archive name exactly when it
exists on disk (first conjunct, the general characterization).  Hence in
the claim's scenario — last read in hour `H0`, now in hour `H0+3`,
archives existing for `H0+1` and `H0+3` but not `H0` or `H0+2` — the
result is exactly `[archive(H0+1)]`: `archive(H0+3)` is not scanned
because the current hour is excluded (second conjunct; `archive(H0)`
would have been included had it existed). -/
theorem C2_scan_range_amended :
    (∀ (fs : FS) (filename hostName : String) (a b : ℤ),
      determineRotatedLogfiles fs filename hostName a b =
        ((hourList a b).map (archiveName filename hostName)).filter
          fun n => (fs.statIno n).isSome) ∧
    (∀ (fs : FS) (filename hostName : String) (H0 : ℤ),
      (fs.statIno (archiveName filename hostName (H0 + 1))).isSome = true →
      fs.statIno (archiveName filename hostName H0) = none →
      fs.statIno (archiveName filename hostName (H0 + 2)) = none →
      determineRotatedLogfiles fs filename hostName H0 (H0 + 3) =
        [archiveName filename hostName (H0 + 1)]) := by
  refine ⟨determineRotatedLogfiles_spec, ?_⟩
  intro fs filename hostName H0 h1 h0 h2
  rw [determineRotatedLogfiles_spec]
  have ht : (H0 + 3 - H0).toNat = 3 := by omega
  have hrange : hourList H0 (H0 + 3) = [H0, H0 + 1, H0 + 2] := by
    unfold hourList
    rw [ht]
    simp only [List.range_succ, List.range_zero, List.nil_append,
      List.map_append, List.map_cons, List.map_nil, List.cons_append]
    norm_num
  rw [hrange]
  simp [h0, h1, h2]

/-- Witness for the amended C2 at a concrete filesystem (archives for
hours 1 and 3 only, `H0 = 0`). -/
theorem C2_witness :
    determineRotatedLogfiles fsArch "log" "h" 0 (0 + 3) =
      [archiveName "log" "h" (0 + 1)] :=
  C2_scan_range_amended.2 fsArch "log" "h" 0 (by decide) (by decide) (by decide)

/-- C3 counterexample: a session that starts with persisted offset 5 and
a non-empty archive queue.  Its first `_filehandle()` call opens the
queue's head archive (inode 7) and seeks it to position 5 — not 0 —
because `_filehandle` always seeks to `self._get_offset()`, refuting
"every rotated archive handle is opened and read from byte position 0
... including when the first handle opened in a session is an archive
from the queue". -/
theorem C3_counterexample :
    stQueued.rotatedLogfiles = [archiveName "log" "h" 1] ∧
    stQueued.offset = 5 ∧
    (filehandle fsArchQ stQueued).map
      (fun p : Handle × PState => (p.1.ino, p.1.pos)) = some (7, 5) ∧
    (5 : ℕ) ≠ 0 := by
  refine ⟨by decide, by decide, by decide, by decide⟩

/-- C3 amended: every `_filehandle()` call that actually opens a handle
(no handle yet, or the previous one closed) seeks the new handle to the
*current stored offset* `self._offset`, whether the opened file is the
archive-queue head or the live path (conjuncts 1-3); the session's
constructor sets that stored offset to the sidecar's persisted offset
(conjunct 5), so the persisted offset is applied to the session's first
opened handle — archive or live alike — and every `_reload` (rotation,
truncation, file-moved, or archive advance) zeroes the stored offset
(conjunct 4), so all handles opened after a reload start at byte 0. -/
theorem C3_seek_amended :
    (∀ (fs : FS) (st st' : PState) (h : Handle),
      st.isClosed = true → filehandle fs st = some (h, st') →
      (h.pos : ℤ) = st.offset) ∧
    (∀ (fs : FS) (st st' : PState) (h : Handle) (f : String) (r : List String),
      st.isClosed = true → st.rotatedLogfiles = f :: r →
      filehandle fs st = some (h, st') →
      fs.statIno f = some h.ino ∧ st'.rotatedLogfiles = r) ∧
    (∀ (fs : FS) (st st' : PState) (h : Handle),
      st.isClosed = true → st.rotatedLogfiles = [] →
      filehandle fs st = some (h, st') →
      fs.statIno st.filename = some h.ino) ∧
    (∀ st : PState, (reload st).offset = 0) ∧
    (∀ (fs : FS) (nowHour : ℤ) (fname host : String) (p ct : Bool)
        (ws wt : ℚ) (text : Option (List Char)) (st : PState),
      pygtailInit fs nowHour fname host p ct ws wt text = .ok st →
      ∃ ls, parseOffsetFile text = .ok ls ∧ st.offset = ls.offset) := by
  refine ⟨?_, ?_, ?_, reload_offset, ?_⟩
  · intro fs st st' h hcl heq
    rw [filehandle_closed fs st hcl] at heq
    unfold openNewHandle at heq
    split at heq <;> split at heq <;> try split at heq
    all_goals first
      | (simp only [Option.some.injEq, Prod.mk.injEq] at heq
         obtain ⟨hh, -⟩ := heq
         subst hh
         simp
         omega)
      | simp at heq
  · intro fs st st' h f r hcl hrot heq
    rw [filehandle_closed fs st hcl] at heq
    unfold openNewHandle at heq
    simp only [hrot] at heq
    split at heq <;> try split at heq
    all_goals first
      | (simp only [Option.some.injEq, Prod.mk.injEq] at heq
         obtain ⟨hh, hst⟩ := heq
         subst hh
         subst hst
         simp_all)
      | simp at heq
  · intro fs st st' h hcl hrot heq
    rw [filehandle_closed fs st hcl] at heq
    unfold openNewHandle at heq
    simp only [hrot] at heq
    split at heq <;> try split at heq
    all_goals first
      | (simp only [Option.some.injEq, Prod.mk.injEq] at heq
         obtain ⟨hh, hst⟩ := heq
         subst hh
         subst hst
         simp_all)
      | simp at heq
  · intro fs nowHour fname host p ct ws wt text st heq
    exact (pygtailInit_fields fs nowHour fname host p ct ws wt text st heq).2.2.2.2

/-- Witness for the amended C3: the archive-head open of `stQueued`
seeks to the stored offset 5; the opened inode is the archive's and the
queue is popped; and a constructed session's stored offset is the
sidecar's offset (2 for `textC8`). -/
theorem C3_witness :
    (((⟨7, 5, false⟩ : Handle).pos : ℤ) = stQueued.offset) ∧
    (fsArchQ.statIno (archiveName "log" "h" 1) =
        some (⟨7, 5, false⟩ : Handle).ino ∧
      ({ stQueued with fh := some ⟨7, 5, false⟩, rotatedLogfiles := [] } :
        PState).rotatedLogfiles = ([] : List String)) ∧
    (∃ ls, parseOffsetFile (some textC8) = .ok ls ∧
      (⟨"log", false, true, 1, 2, 0, 2, none, [], false⟩ : PState).offset =
        ls.offset) :=
  ⟨C3_seek_amended.1 fsArchQ stQueued
      { stQueued with fh := some ⟨7, 5, false⟩, rotatedLogfiles := [] }
      ⟨7, 5, false⟩ (by decide) (by decide),
   C3_seek_amended.2.1 fsArchQ stQueued
      { stQueued with fh := some ⟨7, 5, false⟩, rotatedLogfiles := [] }
      ⟨7, 5, false⟩ (archiveName "log" "h" 1) [] (by decide) (by decide)
      (by decide),
   C3_seek_amended.2.2.2.2 fsC8 ts0.hourIdx "log" "h" false true 1 2
      (some textC8) ⟨"log", false, true, 1, 2, 0, 2, none, [], false⟩
      (by decide)⟩

/-- C9: when a pull finds no data on the live file outside catch-up
mode, `_get_next_line` first runs the rotation/truncation detector and
then hands over to the wait loop (conjunct 1); each failed poll of the
wait loop adds exactly one `wait_step` to the elapsed counter and
re-runs the detector before the next iteration (conjunct 2); a
successful read inside the loop resets the elapsed counter to zero and
returns the line (conjunct 3); once the accumulated wait has reached a
non-negative `wait_timeout` the loop raises `StopIteration` — the
iterator-protocol exhaustion signal, not the error outcome — without
touching the state (conjunct 4); and with a negative `wait_timeout` the
loop can never raise `StopIteration` (conjunct 5). -/
theorem C9_wait_loop :
    (∀ (fs : FS) (envs : List FS) (st : PState) (h : Handle),
      st.fh = some h → h.closed = false →
      (fs.inodeContent h.ino).length ≤ h.pos → st.catchingUp = false →
      ∃ st2 evs, checkRotateTruncate fs st = some (st2, evs) ∧
        getNextLine fs envs st = waitForUpdate st2 envs) ∧
    (∀ (st : PState) (fs : FS) (rest : List FS) (h : Handle) (st2 st4 : PState)
        (evs : List LogEvent),
      (st.waitTimeout < 0 ∨ st.timeWaited < st.waitTimeout) →
      filehandle fs { st with timeWaited := st.timeWaited + st.waitStep } =
        some (h, st2) →
      (fs.inodeContent h.ino).length ≤ h.pos →
      checkRotateTruncate fs st2 = some (st4, evs) →
      waitForUpdate st (fs :: rest) = waitForUpdate st4 rest) ∧
    (∀ (st : PState) (envs : List FS) (l : List Char) (st' : PState),
      waitForUpdate st envs = .line l st' → st'.timeWaited = 0) ∧
    (∀ (st : PState) (envs : List FS),
      0 ≤ st.waitTimeout → st.waitTimeout ≤ st.timeWaited →
      waitForUpdate st envs = .stopIteration st) ∧
    (∀ (st st' : PState) (envs : List FS), st.waitTimeout < 0 →
      waitForUpdate st envs ≠ .stopIteration st') := by
  refine ⟨?_, ?_, ?_, ?_, ?_⟩
  · intro fs envs st h hfh hcl heof hcu
    obtain ⟨st2, evs, hchk⟩ := checkRotateTruncate_exists fs st h hfh hcl
    exact ⟨st2, evs, hchk,
      getNextLine_eof_live fs envs st st2 h evs hfh hcl heof hcu hchk⟩
  · intro st fs rest h st2 st4 evs hcond hfe heof hchk
    exact waitForUpdate_failed_poll st fs rest h st2 st4 evs hcond hfe heof hchk
  · intro st envs l st' h
    exact waitForUpdate_line_timeWaited envs st l st' h
  · intro st envs h0 h1
    exact waitForUpdate_timeout st envs h0 h1
  · intro st st' envs hneg
    exact waitForUpdate_neg_no_stop envs st st' hneg

/-- When the handle is open, the path's inode matches the handle's and
the size has not shrunk below the handle position (or copy-truncate is
off), the detector changes nothing and logs nothing. -/
theorem checkRotateTruncate_nochange (fs : FS) (st : PState) (h : Handle)
    (cs : ℕ) (hfh : st.fh = some h) (hcl : h.closed = false)
    (hstat : fs.stat st.filename = some (h.ino, cs))
    (hno : ¬(st.copytruncate = true ∧ cs < h.pos)) :
    checkRotateTruncate fs st = some (st, []) := by
  unfold checkRotateTruncate
  simp only [filehandle_open fs st h hfh hcl, hstat]
  rw [if_neg (by simp)]
  rw [if_neg hno]

/-- Witness for C9 at concrete inputs: (1) an empty live file at EOF
hands over to the wait loop after the detector; (2) one failed poll
recurses with the counter bumped by `wait_step`; (3) a poll that finds
the line `"a\n"` returns it with the counter reset to 0; (4) a session
whose accumulated wait 5 exceeds the timeout 2 raises `StopIteration`
immediately; (5) with `wait_timeout = -1` the loop does not raise. -/
theorem C9_witness :
    (∃ st2 evs, checkRotateTruncate fsLive stOpen = some (st2, evs) ∧
      getNextLine fsLive [] stOpen = waitForUpdate st2 []) ∧
    waitForUpdate stOpen [fsLive] =
      waitForUpdate
        { stOpen with timeWaited := stOpen.timeWaited + stOpen.waitStep } [] ∧
    ({ { stOpen with timeWaited := stOpen.timeWaited + stOpen.waitStep } with
        fh := some ⟨1, 2, false⟩, timeWaited := 0 } : PState).timeWaited = 0 ∧
    waitForUpdate stTimedOut [fsLive, fsLive] = .stopIteration stTimedOut ∧
    waitForUpdate stNegTimeout [] ≠ .stopIteration stNegTimeout := by
  refine ⟨?_, ?_, ?_, ?_, ?_⟩
  · exact C9_wait_loop.1 fsLive [] stOpen ⟨1, 0, false⟩ (by decide) (by decide)
      (by decide) (by decide)
  · exact C9_wait_loop.2.1 stOpen fsLive [] ⟨1, 0, false⟩
      { stOpen with timeWaited := stOpen.timeWaited + stOpen.waitStep }
      { stOpen with timeWaited := stOpen.timeWaited + stOpen.waitStep } []
      (by decide) (filehandle_open _ _ _ rfl rfl) (by decide)
      (checkRotateTruncate_nochange _ _ ⟨1, 0, false⟩ 0 rfl rfl (by decide)
        (by decide))
  · exact C9_wait_loop.2.2.1 stOpen [fsLiveA] "a\n".data
      { { stOpen with timeWaited := stOpen.timeWaited + stOpen.waitStep } with
        fh := some ⟨1, 2, false⟩, timeWaited := 0 }
      (waitForUpdate_success_poll stOpen fsLiveA [] ⟨1, 0, false⟩ ⟨1, 2, false⟩
        { stOpen with timeWaited := stOpen.timeWaited + stOpen.waitStep }
        "a\n".data (by decide) (filehandle_open _ _ _ rfl rfl) (by decide)
        (by decide))
  · exact C9_wait_loop.2.2.2.1 stTimedOut [fsLive, fsLive] (by decide) (by decide)
  · exact C9_wait_loop.2.2.2.2 stNegTimeout stNegTimeout [] (by decide)

/-- C10 (implicit): `time_waited` is instance state persisting across
pulls.  It is set to 0 at construction (conjunct 1); a line read
directly (outside the wait loop) leaves it untouched, so an
accumulated value carries over to later pulls (conjunct 2); inside the
wait loop only a successful read resets it to 0 (conjunct 3) while
failed polling never decreases it (conjunct 4); and once the
accumulated value has reached a non-negative `wait_timeout`, a pull
that hits end-of-file on the live file raises `StopIteration`
immediately — the same result for every poll environment, i.e. without
sleeping or polling even once — with the counter still intact
(conjunct 5). -/
theorem C10_time_waited_instance_state :
    (∀ (fs : FS) (nowHour : ℤ) (fname host : String) (p ct : Bool)
        (ws wt : ℚ) (text : Option (List Char)) (st : PState),
      pygtailInit fs nowHour fname host p ct ws wt text = .ok st →
      st.timeWaited = 0) ∧
    (∀ (fs : FS) (envs : List FS) (st : PState) (h h2 : Handle) (l : List Char),
      st.fh = some h → h.closed = false → readline fs h = (l, h2) → l ≠ [] →
      getNextLine fs envs st = .line l { st with fh := some h2 }) ∧
    (∀ (st : PState) (envs : List FS) (l : List Char) (st' : PState),
      waitForUpdate st envs = .line l st' → st'.timeWaited = 0) ∧
    (∀ (st st' : PState) (envs : List FS), 0 ≤ st.waitStep →
      (waitForUpdate st envs = .stopIteration st' ∨
        waitForUpdate st envs = .pending st') →
      st.timeWaited ≤ st'.timeWaited) ∧
    (∀ (fs : FS) (envs : List FS) (st st2 : PState) (h : Handle)
        (evs : List LogEvent),
      0 ≤ st.waitTimeout → st.waitTimeout ≤ st.timeWaited →
      st.fh = some h → h.closed = false →
      (fs.inodeContent h.ino).length ≤ h.pos → st.catchingUp = false →
      checkRotateTruncate fs st = some (st2, evs) →
      getNextLine fs envs st = .stopIteration st2 ∧
        st2.timeWaited = st.timeWaited) := by
  refine ⟨?_, ?_, ?_, ?_, ?_⟩
  · intro fs nowHour fname host p ct ws wt text st heq
    exact (pygtailInit_fields fs nowHour fname host p ct ws wt text st heq).1
  · intro fs envs st h h2 l hfh hcl hr hl
    exact getNextLine_line fs envs st h h2 l hfh hcl hr hl
  · intro st envs l st' h
    exact waitForUpdate_line_timeWaited envs st l st' h
  · intro st st' envs hws h
    exact waitForUpdate_mono envs st st' hws h
  · intro fs envs st st2 h evs h0 h1 hfh hcl heof hcu hchk
    have htw := (checkRotateTruncate_proj fs st st2 evs hchk).1
    have hwt := (checkRotateTruncate_proj fs st st2 evs hchk).2.2.1
    refine ⟨?_, htw⟩
    rw [getNextLine_eof_live fs envs st st2 h evs hfh hcl heof hcu hchk]
    have := waitForUpdate_timeout st2 envs (hwt ▸ h0) (by rw [htw, hwt]; exact h1)
    exact this

/-- Witness for C10: a constructed session starts with the counter at
0; a direct read of `"a\n"` preserves the counter; a wait-loop read
resets it; failed polling is monotone on the concrete timed-out state;
and the timed-out session's pull raises immediately with the counter
kept at 5 — for the two-poll environment as for any other. -/
theorem C10_witness :
    ((⟨"log", false, true, 1, 2, 0, 0, none, [], false⟩ : PState).timeWaited = 0) ∧
    getNextLine fsLiveA [] stOpen =
      .line "a\n".data { stOpen with fh := some ⟨1, 2, false⟩ } ∧
    ({ { stOpen with timeWaited := stOpen.timeWaited + stOpen.waitStep } with
        fh := some ⟨1, 2, false⟩, timeWaited := 0 } : PState).timeWaited = 0 ∧
    stTimedOut.timeWaited ≤ stTimedOut.timeWaited ∧
    (getNextLine fsLive [fsLive, fsLive] stTimedOut = .stopIteration stTimedOut ∧
      stTimedOut.timeWaited = stTimedOut.timeWaited) := by
  refine ⟨?_, ?_, ?_, ?_, ?_⟩
  · exact C10_time_waited_instance_state.1 fsLive 0 "log" "h" false true 1 2
      none _ (by decide)
  · exact C10_time_waited_instance_state.2.1 fsLiveA [] stOpen ⟨1, 0, false⟩
      ⟨1, 2, false⟩ "a\n".data (by decide) (by decide) (by decide) (by decide)
  · exact C10_time_waited_instance_state.2.2.1 stOpen [fsLiveA] "a\n".data
      { { stOpen with timeWaited := stOpen.timeWaited + stOpen.waitStep } with
        fh := some ⟨1, 2, false⟩, timeWaited := 0 }
      (waitForUpdate_success_poll stOpen fsLiveA [] ⟨1, 0, false⟩ ⟨1, 2, false⟩
        { stOpen with timeWaited := stOpen.timeWaited + stOpen.waitStep }
        "a\n".data (by decide) (filehandle_open _ _ _ rfl rfl) (by decide)
        (by decide))
  · exact C10_time_waited_instance_state.2.2.2.1 stTimedOut stTimedOut []
      (by decide) (Or.inl (by decide))
  · exact C10_time_waited_instance_state.2.2.2.2 fsLive [fsLive, fsLive]
      stTimedOut stTimedOut ⟨1, 0, false⟩ [] (by decide) (by decide) (by decide)
      (by decide) (by decide) (by decide)
      (checkRotateTruncate_nochange fsLive stTimedOut ⟨1, 0, false⟩ 0 (by decide)
        (by decide) (by decide) (by decide))

/-- C1: a live tailing session holds an open handle on inode `i1` at
offset `X` (with the old content fully consumed, as a tailing session
at end-of-file has), and the path is replaced by a new file: it now
designates a fresh inode `i2 ≠ i1` with fresh non-empty content `c2`,
while the old inode's content is still reachable through the open
handle.  Then (part 1) the detector sees the inode mismatch, emits the
rotation message, closes the stale handle and resets the stored offset
to 0; and (part 2) the next pull of a line returns the *first line of
the new file* — `takeLine c2`, read from position 0 — leaving the
session's handle on the new inode `i2` just past that line, rather
than continuing at offset `X`. -/
theorem C1_rotation_reopens_at_zero :
    ∀ (fname : String) (i1 i2 X : ℕ) (c1 c2 : List Char) (p ct : Bool)
      (ws wt tw : ℚ) (off : ℤ) (sc : Option SidecarData) (now : Timestamp)
      (rest : List FS) (fs2 : FS) (st : PState),
    fs2 = ⟨[(fname, i2)], [(i1, c1), (i2, c2)]⟩ →
    st = ⟨fname, p, ct, ws, wt, tw, off, some ⟨i1, X, false⟩, [], false⟩ →
    i1 ≠ i2 → c1.length ≤ X → c2 ≠ [] →
    (wt < 0 ∨ tw < wt) →
    (∃ evs, checkRotateTruncate fs2 st = some (reload st, evs) ∧
      LogEvent.infoFileRotated ∈ evs ∧
      (reload st).offset = 0 ∧ (reload st).isClosed = true) ∧
    (∃ st2 sc2, pnext fs2 (fs2 :: rest) now st sc =
      some (.line (takeLine c2), st2, sc2) ∧
      st2.fh = some ⟨i2, (takeLine c2).length, false⟩) := by
  intro fname i1 i2 X c1 c2 p ct ws wt tw off sc now rest fs2 st hfs hst h12 hX
    hc2 hw
  subst hfs
  subst hst
  have hstatIno :
      FS.statIno ⟨[(fname, i2)], [(i1, c1), (i2, c2)]⟩ fname = some i2 := by
    simp [FS.statIno, List.lookup]
  have hc1content :
      FS.inodeContent ⟨[(fname, i2)], [(i1, c1), (i2, c2)]⟩ i1 = c1 := by
    simp [FS.inodeContent, List.lookup]
  have hc2content :
      FS.inodeContent ⟨[(fname, i2)], [(i1, c1), (i2, c2)]⟩ i2 = c2 := by
    have hne : (i2 == i1) = false := beq_eq_false_iff_ne.mpr (Ne.symm h12)
    simp [FS.inodeContent, List.lookup, hne]
  have hstat :
      FS.stat ⟨[(fname, i2)], [(i1, c1), (i2, c2)]⟩ fname =
        some (i2, c2.length) := by
    simp [FS.stat, FS.statIno, List.lookup, hc2content]
  have hchk := checkRotateTruncate_rotated
    ⟨[(fname, i2)], [(i1, c1), (i2, c2)]⟩
    ⟨fname, p, ct, ws, wt, tw, off, some ⟨i1, X, false⟩, [], false⟩
    ⟨i1, X, false⟩ i2 c2.length rfl rfl hstat h12
  refine ⟨⟨_, hchk, by split <;> simp, rfl,
    reload_isClosed _ ⟨i1, X, false⟩ rfl⟩, ?_⟩
  have heof :
      (FS.inodeContent ⟨[(fname, i2)], [(i1, c1), (i2, c2)]⟩
        (⟨i1, X, false⟩ : Handle).ino).length ≤ (⟨i1, X, false⟩ : Handle).pos := by
    rw [hc1content]
    exact hX
  have hg := getNextLine_eof_live ⟨[(fname, i2)], [(i1, c1), (i2, c2)]⟩
    (⟨[(fname, i2)], [(i1, c1), (i2, c2)]⟩ :: rest)
    ⟨fname, p, ct, ws, wt, tw, off, some ⟨i1, X, false⟩, [], false⟩ _
    ⟨i1, X, false⟩ _ rfl rfl heof rfl hchk
  have hr : readline ⟨[(fname, i2)], [(i1, c1), (i2, c2)]⟩ ⟨i2, 0, false⟩ =
      (takeLine c2, ⟨i2, (takeLine c2).length, false⟩) := by
    unfold readline
    simp [hc2content]
  have hfe := filehandle_reopen_live ⟨[(fname, i2)], [(i1, c1), (i2, c2)]⟩
    { reload ⟨fname, p, ct, ws, wt, tw, off, some ⟨i1, X, false⟩, [], false⟩ with
      timeWaited :=
        (reload ⟨fname, p, ct, ws, wt, tw, off, some ⟨i1, X, false⟩, [],
          false⟩).timeWaited +
        (reload ⟨fname, p, ct, ws, wt, tw, off, some ⟨i1, X, false⟩, [],
          false⟩).waitStep }
    i2 rfl rfl hstatIno (by simp [reload])
  have hsucc := waitForUpdate_success_poll
    (reload ⟨fname, p, ct, ws, wt, tw, off, some ⟨i1, X, false⟩, [], false⟩)
    ⟨[(fname, i2)], [(i1, c1), (i2, c2)]⟩ rest
    ⟨i2, 0, false⟩ ⟨i2, (takeLine c2).length, false⟩ _ (takeLine c2)
    hw hfe hr (takeLine_ne_nil c2 hc2)
  have hgl := hg.trans hsucc
  refine ⟨_, _, pnext_line _ _ now _ sc (takeLine c2) _
    ⟨i2, (takeLine c2).length, false⟩ i2 hgl rfl rfl hstatIno, rfl⟩

/-- Witness for C1: live path `log` rotated from inode 5 (old content
`"a\nb\n"`, fully consumed at offset 4) to inode 7 containing
`"x\ny\n"`; the detector reloads and the next pull returns `"x\n"`,
the new file's first line, on a handle at inode 7 position 2. -/
theorem C1_witness :
    (∃ evs, checkRotateTruncate fsRot stRot = some (reload stRot, evs) ∧
      LogEvent.infoFileRotated ∈ evs ∧
      (reload stRot).offset = 0 ∧ (reload stRot).isClosed = true) ∧
    (∃ st2 sc2, pnext fsRot (fsRot :: []) ts0 stRot none =
      some (.line (takeLine "x\ny\n".data), st2, sc2) ∧
      st2.fh = some ⟨7, (takeLine "x\ny\n".data).length, false⟩) :=
  C1_rotation_reopens_at_zero "log" 5 7 4 "a\nb\n".data "x\ny\n".data false true
    1 2 0 0 none ts0 [] fsRot stRot rfl rfl (by decide) (by decide) (by decide)
    (by decide)

/-- C4: with copy-truncate support enabled, a live tailing session holds
an open handle at read position `X` on inode `i`, and the on-disk file
at the live path still has inode `i` but its content `c2` has shrunk to
a size below `X`.  Then (part 1) the detector sees the same inode with
the smaller size, emits the truncation message, closes the handle and
resets the stored offset to 0; and (part 2) the next pull of a line
reads from the start of the now-smaller file — it returns `takeLine c2`,
the truncated file's first line, on a handle still on inode `i` (the
reopen is on the same path and the same inode). -/
theorem C4_copytruncate_resets_to_zero :
    ∀ (fname : String) (i X : ℕ) (c2 : List Char) (p : Bool)
      (ws wt tw : ℚ) (off : ℤ) (sc : Option SidecarData) (now : Timestamp)
      (rest : List FS) (fs2 : FS) (st : PState),
    fs2 = ⟨[(fname, i)], [(i, c2)]⟩ →
    st = ⟨fname, p, true, ws, wt, tw, off, some ⟨i, X, false⟩, [], false⟩ →
    c2.length < X → c2 ≠ [] →
    (wt < 0 ∨ tw < wt) →
    (checkRotateTruncate fs2 st = some (reload st, [.infoFileTruncated]) ∧
      (reload st).offset = 0 ∧ (reload st).isClosed = true) ∧
    (∃ st2 sc2, pnext fs2 (fs2 :: rest) now st sc =
      some (.line (takeLine c2), st2, sc2) ∧
      st2.fh = some ⟨i, (takeLine c2).length, false⟩) := by
  intro fname i X c2 p ws wt tw off sc now rest fs2 st hfs hst hX hc2 hw
  subst hfs
  subst hst
  have hstatIno : FS.statIno ⟨[(fname, i)], [(i, c2)]⟩ fname = some i := by
    simp [FS.statIno, List.lookup]
  have hc2content : FS.inodeContent ⟨[(fname, i)], [(i, c2)]⟩ i = c2 := by
    simp [FS.inodeContent, List.lookup]
  have hstat :
      FS.stat ⟨[(fname, i)], [(i, c2)]⟩ fname = some (i, c2.length) := by
    simp [FS.stat, FS.statIno, List.lookup, hc2content]
  have hchk := checkRotateTruncate_truncated ⟨[(fname, i)], [(i, c2)]⟩
    ⟨fname, p, true, ws, wt, tw, off, some ⟨i, X, false⟩, [], false⟩
    ⟨i, X, false⟩ c2.length rfl rfl hstat rfl hX
  refine ⟨⟨hchk, rfl, reload_isClosed _ ⟨i, X, false⟩ rfl⟩, ?_⟩
  have heof :
      (FS.inodeContent ⟨[(fname, i)], [(i, c2)]⟩
        (⟨i, X, false⟩ : Handle).ino).length ≤ (⟨i, X, false⟩ : Handle).pos := by
    rw [hc2content]
    exact le_of_lt hX
  have hg := getNextLine_eof_live ⟨[(fname, i)], [(i, c2)]⟩
    (⟨[(fname, i)], [(i, c2)]⟩ :: rest)
    ⟨fname, p, true, ws, wt, tw, off, some ⟨i, X, false⟩, [], false⟩ _
    ⟨i, X, false⟩ _ rfl rfl heof rfl hchk
  have hr : readline ⟨[(fname, i)], [(i, c2)]⟩ ⟨i, 0, false⟩ =
      (takeLine c2, ⟨i, (takeLine c2).length, false⟩) := by
    unfold readline
    simp [hc2content]
  have hfe := filehandle_reopen_live ⟨[(fname, i)], [(i, c2)]⟩
    { reload ⟨fname, p, true, ws, wt, tw, off, some ⟨i, X, false⟩, [], false⟩ with
      timeWaited :=
        (reload ⟨fname, p, true, ws, wt, tw, off, some ⟨i, X, false⟩, [],
          false⟩).timeWaited +
        (reload ⟨fname, p, true, ws, wt, tw, off, some ⟨i, X, false⟩, [],
          false⟩).waitStep }
    i rfl rfl hstatIno (by simp [reload])
  have hsucc := waitForUpdate_success_poll
    (reload ⟨fname, p, true, ws, wt, tw, off, some ⟨i, X, false⟩, [], false⟩)
    ⟨[(fname, i)], [(i, c2)]⟩ rest
    ⟨i, 0, false⟩ ⟨i, (takeLine c2).length, false⟩ _ (takeLine c2)
    hw hfe hr (takeLine_ne_nil c2 hc2)
  have hgl := hg.trans hsucc
  refine ⟨_, _, pnext_line _ _ now _ sc (takeLine c2) _
    ⟨i, (takeLine c2).length, false⟩ i hgl rfl rfl hstatIno, rfl⟩

/-- Witness for C4: the live file on inode 5 shrank to `"z\n"` (size 2)
while the handle sits at position 4; the next pull returns `"z\n"`, the
truncated file's first line, on a handle still on inode 5. -/
theorem C4_witness :
    (checkRotateTruncate fsTrunc stRot = some (reload stRot, [.infoFileTruncated]) ∧
      (reload stRot).offset = 0 ∧ (reload stRot).isClosed = true) ∧
    (∃ st2 sc2, pnext fsTrunc (fsTrunc :: []) ts0 stRot none =
      some (.line (takeLine "z\n".data), st2, sc2) ∧
      st2.fh = some ⟨5, (takeLine "z\n".data).length, false⟩) :=
  C4_copytruncate_resets_to_zero "log" 5 4 "z\n".data false 1 2 0 0 none ts0 []
    fsTrunc stRot rfl rfl (by decide) (by decide) (by decide)

/-- C8: paranoid mode.  The live file consists of proper lines `LS`
(each non-empty, newline-terminated, no interior newline) on inode `i`,
and the session's handle sits exactly after the first `k` lines.  Part
1: the pull that delivers line `k` leaves the handle exactly after line
`k` — at byte `|flatten (take (k+1) LS)|` — and, paranoid mode being
on, persists precisely that byte position with the live path's inode
`i` to the sidecar immediately, before the line is handed out.  Part 2
(kill and restart after delivering line `k`): a fresh session
constructed from a sidecar recording exactly that cursor (inode `i`,
offset `|flatten (take (k+1) LS)|`, some timestamp `ts`, with the
restart in the same hour so no archives are pending) delivers line
`k+1` on its first pull — line `k` is never re-delivered. -/
theorem C8_paranoid_exact_resume :
    ∀ (fname host : String) (i k : ℕ) (LS : List (List Char)) (ct : Bool)
      (ws wt tw : ℚ) (off : ℤ) (sc : Option SidecarData) (now now2 : Timestamp)
      (envs envs2 : List FS) (text : Option (List Char)) (ts : Timestamp)
      (p2 ct2 : Bool) (ws2 wt2 : ℚ) (fs : FS) (st : PState),
    fs = ⟨[(fname, i)], [(i, LS.flatten)]⟩ →
    st = ⟨fname, true, ct, ws, wt, tw, off,
      some ⟨i, ((LS.take k).flatten).length, false⟩, [], false⟩ →
    LS.all properLine = true →
    ∀ hk : k + 1 < LS.length,
    pnext fs envs now st sc =
      some (.line (LS.get ⟨k, Nat.lt_of_succ_lt hk⟩),
        { st with fh := some ⟨i, ((LS.take (k + 1)).flatten).length, false⟩ },
        some ⟨i, ((LS.take (k + 1)).flatten).length, now⟩) ∧
    (parseOffsetFile text =
        .ok ⟨some i, (((LS.take (k + 1)).flatten).length : ℤ), some ts⟩ →
      ∀ st0, pygtailInit fs ts.hourIdx fname host p2 ct2 ws2 wt2 text = .ok st0 →
      ∃ st3 sc3, pnext fs envs2 now2 st0 none =
        some (.line (LS.get ⟨k + 1, hk⟩), st3, sc3)) := by
  intro fname host i k LS ct ws wt tw off sc now now2 envs envs2 text ts p2 ct2
    ws2 wt2 fs st hfs hst hall hk
  subst hfs
  subst hst
  have hk0 : k < LS.length := Nat.lt_of_succ_lt hk
  have hall' : ∀ l ∈ LS, properLine l = true := List.all_eq_true.mp hall
  have hcontent :
      FS.inodeContent ⟨[(fname, i)], [(i, LS.flatten)]⟩ i = LS.flatten := by
    simp [FS.inodeContent, List.lookup]
  have hstatIno :
      FS.statIno ⟨[(fname, i)], [(i, LS.flatten)]⟩ fname = some i := by
    simp [FS.statIno, List.lookup]
  have hr := readline_flatten ⟨[(fname, i)], [(i, LS.flatten)]⟩ i k LS
    hcontent hall' hk0
  have hne : LS.get ⟨k, hk0⟩ ≠ [] :=
    properLine_ne_nil _ (hall' _ (LS.get_mem k hk0))
  have hg := getNextLine_line ⟨[(fname, i)], [(i, LS.flatten)]⟩ envs
    ⟨fname, true, ct, ws, wt, tw, off,
      some ⟨i, ((LS.take k).flatten).length, false⟩, [], false⟩
    ⟨i, ((LS.take k).flatten).length, false⟩
    ⟨i, ((LS.take (k + 1)).flatten).length, false⟩
    (LS.get ⟨k, hk0⟩) rfl rfl hr hne
  constructor
  · exact pnext_line _ envs now _ sc (LS.get ⟨k, hk0⟩) _
      ⟨i, ((LS.take (k + 1)).flatten).length, false⟩ i hg rfl rfl hstatIno
  · intro hparse st0 hinit
    have hinit2 := pygtailInit_same_hour ⟨[(fname, i)], [(i, LS.flatten)]⟩
      fname host p2 ct2 ws2 wt2 text i
      (((LS.take (k + 1)).flatten).length : ℤ) ts hparse
    have hst0 : st0 = ⟨fname, p2, ct2, ws2, wt2, 0,
        (((LS.take (k + 1)).flatten).length : ℤ), none, [], false⟩ :=
      Except.ok.inj (hinit.symm.trans hinit2)
    subst hst0
    have hoff : ¬((((LS.take (k + 1)).flatten).length : ℤ) < 0) :=
      not_lt.mpr (Int.natCast_nonneg _)
    have hfe := filehandle_reopen_live ⟨[(fname, i)], [(i, LS.flatten)]⟩
      ⟨fname, p2, ct2, ws2, wt2, 0,
        (((LS.take (k + 1)).flatten).length : ℤ), none, [], false⟩
      i rfl rfl hstatIno hoff
    have hr2 := readline_flatten ⟨[(fname, i)], [(i, LS.flatten)]⟩ i (k + 1) LS
      hcontent hall' hk
    have hne2 : LS.get ⟨k + 1, hk⟩ ≠ [] :=
      properLine_ne_nil _ (hall' _ (LS.get_mem (k + 1) hk))
    have hg2 := getNextLine_line_fh ⟨[(fname, i)], [(i, LS.flatten)]⟩ envs2
      ⟨fname, p2, ct2, ws2, wt2, 0,
        (((LS.take (k + 1)).flatten).length : ℤ), none, [], false⟩
      _ ⟨i, ((LS.take (k + 1)).flatten).length, false⟩
      ⟨i, ((LS.take (k + 2)).flatten).length, false⟩
      (LS.get ⟨k + 1, hk⟩) hfe hr2 hne2
    exact ⟨_, _, pnext_line _ envs2 now2 _ none (LS.get ⟨k + 1, hk⟩) _
      ⟨i, ((LS.take (k + 2)).flatten).length, false⟩ i hg2 rfl rfl hstatIno⟩

/-- Witness for C8 on the three-line file `"a\nb\nc\n"` (inode 3):
delivering line 0 (`"a\n"`) persists inode 3 and offset 2 immediately;
a fresh session built from the sidecar text recording exactly that
cursor delivers line 1 (`"b\n"`) first. -/
theorem C8_witness :
    (pnext fsC8 [] ts0 stC8 none =
      some (.line (lsC8.get ⟨0, by decide⟩),
        { stC8 with fh := some ⟨3, ((lsC8.take 1).flatten).length, false⟩ },
        some ⟨3, ((lsC8.take 1).flatten).length, ts0⟩)) ∧
    (∃ st3 sc3,
      pnext fsC8 [] ts0
        ⟨"log", false, true, 1, 2, 0, (((lsC8.take 1).flatten).length : ℤ),
          none, [], false⟩ none =
        some (.line (lsC8.get ⟨1, by decide⟩), st3, sc3)) := by
  have H := C8_paranoid_exact_resume "log" "h" 3 0 lsC8 true 1 2 0 0 none ts0
    ts0 [] [] (some textC8) ts0 false true 1 2 fsC8 stC8 rfl rfl (by decide)
    (by decide)
  exact ⟨H.1, H.2 (by decide)
    ⟨"log", false, true, 1, 2, 0, (((lsC8.take 1).flatten).length : ℤ),
      none, [], false⟩ (by decide)⟩
